import Mathlib

/-!
# Verification of the Imaginary-Teleprompter voice-sync core

A shallow embedding, in Lean 4, of the voice-synchronisation core of the
Imaginary-Teleprompter repository (`src/js/speechRecognition.js` together with
the superseded iteration in `src/unnamed/part_001`), and proofs of the
behavioural properties claimed in its specification.

JavaScript strings are modelled as lists of Unicode code points (`List Nat`);
JavaScript numbers are modelled as exact rationals (`ℚ`).  Every branch that a
claim depends on is float-exact in the source (integer counters, comparisons
against decimal literals on exactly-representable inputs), so the rational
model is faithful where it is used.  The DOM, the speech-recognition stream
and the scroll actuator are external collaborators: elements are modelled as
records carrying the data the core reads from them (their text and layout
offsets), and emitted scroll commands are returned as values.
-/

namespace Teleprompter

/-- A JavaScript string, modelled as its list of Unicode code points. -/
abbrev JSStr := List Nat

/-- The code points of a string literal (used for concrete test inputs). -/
def strCodes (s : String) : JSStr := s.data.map Char.toNat

/-- Code points matched by the JavaScript regex class `\s` (the same set is
removed from either end by `String.prototype.trim`). -/
def jsSpaceCodes : List Nat :=
  [0x09, 0x0A, 0x0B, 0x0C, 0x0D, 0x20, 0xA0, 0x1680,
   0x2000, 0x2001, 0x2002, 0x2003, 0x2004, 0x2005, 0x2006, 0x2007,
   0x2008, 0x2009, 0x200A, 0x2028, 0x2029, 0x202F, 0x205F, 0x3000, 0xFEFF]

/-- The JavaScript regex class `\s`. -/
def jsIsSpace (c : Nat) : Bool := c ∈ jsSpaceCodes

/-- The JavaScript regex class `\w`, that is `[A-Za-z0-9_]`. -/
def jsIsWordChar (c : Nat) : Bool :=
  decide ((0x41 ≤ c ∧ c ≤ 0x5A) ∨ (0x61 ≤ c ∧ c ≤ 0x7A) ∨
    (0x30 ≤ c ∧ c ≤ 0x39) ∨ c = 0x5F)

/-- Code points that `String.prototype.toLowerCase` lowers within the Basic
Latin and Latin-1 blocks: `A`–`Z` and `À`–`Þ` except `×`. -/
def isLowerableCode (c : Nat) : Prop :=
  (0x41 ≤ c ∧ c ≤ 0x5A) ∨ (0xC0 ≤ c ∧ c ≤ 0xDE ∧ c ≠ 0xD7)

instance (c : Nat) : Decidable (isLowerableCode c) := by
  unfold isLowerableCode; infer_instance

/-- `String.prototype.toLowerCase`, modelled on the Basic Latin and Latin-1
blocks.  Code points above U+00FF are left unchanged: with the exception of
whitespace (which `toLowerCase` never affects) they are removed by the `\w`
filter of `normalizarTexto`, so the restriction does not change the value of
any function modelled below. -/
def jsToLower (c : Nat) : Nat := if isLowerableCode c then c + 0x20 else c

/-- The combining diacritical marks U+0300–U+036F, the class stripped by
`normalizarTexto` after NFD decomposition. -/
def isCombiningMark (c : Nat) : Bool := decide (0x300 ≤ c ∧ c ≤ 0x36F)

/-- Canonical (NFD) decompositions of the lowercase Latin-1 letters: the only
code points with a canonical decomposition that can reach the
`normalize('NFD')` step of `normalizarTexto` after `toLowerCase`. -/
def nfdTable : List (Nat × List Nat) :=
  [(0xE0, [0x61, 0x300]), (0xE1, [0x61, 0x301]), (0xE2, [0x61, 0x302]),
   (0xE3, [0x61, 0x303]), (0xE4, [0x61, 0x308]), (0xE5, [0x61, 0x30A]),
   (0xE7, [0x63, 0x327]), (0xE8, [0x65, 0x300]), (0xE9, [0x65, 0x301]),
   (0xEA, [0x65, 0x302]), (0xEB, [0x65, 0x308]), (0xEC, [0x69, 0x300]),
   (0xED, [0x69, 0x301]), (0xEE, [0x69, 0x302]), (0xEF, [0x69, 0x308]),
   (0xF1, [0x6E, 0x303]), (0xF2, [0x6F, 0x300]), (0xF3, [0x6F, 0x301]),
   (0xF4, [0x6F, 0x302]), (0xF5, [0x6F, 0x303]), (0xF6, [0x6F, 0x308]),
   (0xF9, [0x75, 0x300]), (0xFA, [0x75, 0x301]), (0xFB, [0x75, 0x302]),
   (0xFC, [0x75, 0x308]), (0xFD, [0x79, 0x301]), (0xFF, [0x79, 0x308])]

/-- NFD decomposition of one code point (identity off `nfdTable`). -/
def nfdChar (c : Nat) : List Nat :=
  ((nfdTable.find? (fun p => p.1 = c)).map Prod.snd).getD [c]

/-- `String.prototype.trim`: removes leading and trailing whitespace. -/
def jsTrim (l : JSStr) : JSStr :=
  ((l.dropWhile jsIsSpace).reverse.dropWhile jsIsSpace).reverse

/-- `normalizarTexto` from `src/js/speechRecognition.js`:
lowercase, NFD-decompose, strip combining marks (`/[̀-ͯ]/g` → `''`),
strip everything outside `\w` and `\s` (`/[^\w\s]/g` → `''`), trim. -/
def normalizarTexto (texto : JSStr) : JSStr :=
  jsTrim ((((texto.map jsToLower).flatMap nfdChar).filter
    (fun c => !isCombiningMark c)).filter (fun c => jsIsWordChar c || jsIsSpace c))

/-- One pass of `replace(/\s+/g, ' ')`: every maximal whitespace run becomes a
single space.  The Boolean records whether the previous character was
whitespace. -/
def collapseWsGo : JSStr → Bool → JSStr
  | [], _ => []
  | c :: rest, prevSpace =>
    if jsIsSpace c then
      if prevSpace then collapseWsGo rest true else 0x20 :: collapseWsGo rest true
    else c :: collapseWsGo rest false

/-- `replace(/\s+/g, ' ')`. -/
def collapseWs (l : JSStr) : JSStr := collapseWsGo l false

/-- `normalizarTexto` from `src/unnamed/part_001`: the same pipeline except
that characters outside `\w`/`\s` are replaced by a space
(`/[^\w\s]/g` → `' '`) and whitespace runs are then collapsed. -/
def normalizarTextoV1 (texto : JSStr) : JSStr :=
  jsTrim (collapseWs ((((texto.map jsToLower).flatMap nfdChar).filter
    (fun c => !isCombiningMark c)).map
      (fun c => if jsIsWordChar c || jsIsSpace c then c else 0x20)))

/-- The maximal non-whitespace runs of a string. -/
def wordsOf (l : JSStr) : List JSStr := (l.splitOnP jsIsSpace).filter (fun w => w ≠ [])

/-- `String.prototype.split(/\s+/)`: the non-whitespace runs, plus an empty
leading (trailing) token when the string starts (ends) with whitespace, and a
single empty token for the empty string. -/
def splitWs (l : JSStr) : List JSStr :=
  if l = [] then [[]]
  else (if jsIsSpace (l.headD 0) then [([] : JSStr)] else []) ++ wordsOf l ++
    (if jsIsSpace (l.getLastD 0) then [([] : JSStr)] else [])

/-- `texto.split(/\s+/).filter(p => p.length > k)`, the tokenisation step
shared by the similarity and tracking functions. -/
def palavrasMaioresQue (k : Nat) (texto : JSStr) : List JSStr :=
  (splitWs texto).filter (fun w => w.length > k)

/-- `calcularSimilaridade` from `src/js/speechRecognition.js`: the fraction of
the spoken words of length > 2 that occur in the element's word set (the
JavaScript `Set` is modelled by list membership, which coincides with `Set.has`
on the inserted values). -/
def calcularSimilaridade (textoFalado textoElemento : JSStr) : ℚ :=
  if (palavrasMaioresQue 2 textoFalado).length = 0 then 0
  else (((palavrasMaioresQue 2 textoFalado).filter
      (fun p => p ∈ palavrasMaioresQue 2 textoElemento)).length : ℚ) /
    ((palavrasMaioresQue 2 textoFalado).length : ℚ)

/-- Count of positions at which two words differ, over their common prefix. -/
def mismatches (w1 w2 : JSStr) : Nat := ((w1.zip w2).filter (fun p => p.1 ≠ p.2)).length

/-- The absolute length difference of two words. -/
def lenGap (w1 w2 : JSStr) : Nat :=
  max w1.length w2.length - min w1.length w2.length

/-- `fuzzyMatch` from `src/unnamed/part_001`.  The float comparison
`differences / Math.max(...) <= 0.3` is modelled by the exact rational
comparison against `3/10` (the two agree for every word length the double
format can tell apart). -/
def fuzzyMatch (word1 word2 : JSStr) : Bool :=
  if word1 = word2 then true
  else if 2 < lenGap word1 word2 then false
  else if word1.length ≤ 3 ∨ word2.length ≤ 3 then word1 = word2
  else
    decide (((mismatches word1 word2 + lenGap word1 word2 : Nat) : ℚ) /
      (max word1.length word2.length : Nat) ≤ 3 / 10)

/-- The per-word credit of `calcularSimilaridade` from `src/unnamed/part_001`:
1 for an exact hit, 0.7 for a word with only a fuzzy match, 0 otherwise. -/
def creditoPalavra (palavra : JSStr) (palavrasElemento : List JSStr) : ℚ :=
  if palavra ∈ palavrasElemento then 1
  else if palavrasElemento.any (fun q => fuzzyMatch palavra q) then 7 / 10
  else 0

/-- `calcularSimilaridade` from `src/unnamed/part_001` (coverage with partial
credit 0.7 for fuzzy-only matches). -/
def calcularSimilaridadeV1 (textoFalado textoElemento : JSStr) : ℚ :=
  if (palavrasMaioresQue 2 textoFalado).length = 0 then 0
  else ((palavrasMaioresQue 2 textoFalado).map
      (fun p => creditoPalavra p (palavrasMaioresQue 2 textoElemento))).sum /
    ((palavrasMaioresQue 2 textoFalado).length : ℚ)

/-! ## Similarity bounds (C6) -/

lemma creditoPalavra_nonneg (p : JSStr) (es : List JSStr) : 0 ≤ creditoPalavra p es := by
  unfold creditoPalavra; split_ifs <;> norm_num

lemma creditoPalavra_le_one (p : JSStr) (es : List JSStr) : creditoPalavra p es ≤ 1 := by
  unfold creditoPalavra; split_ifs <;> norm_num

lemma sum_credito_nonneg (l : List JSStr) (es : List JSStr) :
    0 ≤ (l.map (fun p => creditoPalavra p es)).sum := by
  induction l with
  | nil => simp
  | cons p t ih =>
    simp only [List.map_cons, List.sum_cons]
    have := creditoPalavra_nonneg p es
    linarith

lemma sum_credito_all_exact (l : List JSStr) (es : List JSStr) (h : ∀ p ∈ l, p ∈ es) :
    (l.map (fun p => creditoPalavra p es)).sum = (l.length : ℚ) := by
  induction l with
  | nil => simp
  | cons p t ih =>
    have hp : creditoPalavra p es = 1 := by
      unfold creditoPalavra; rw [if_pos (h p (by simp))]
    simp only [List.map_cons, List.sum_cons, List.length_cons, hp,
      ih (fun q hq => h q (by simp [hq]))]
    push_cast
    ring

lemma sum_credito_le_length (l : List JSStr) (es : List JSStr) :
    (l.map (fun p => creditoPalavra p es)).sum ≤ (l.length : ℚ) := by
  induction l with
  | nil => simp
  | cons p t ih =>
    simp only [List.map_cons, List.sum_cons, List.length_cons]
    have := creditoPalavra_le_one p es
    push_cast
    linarith

/-- C6.  Coverage similarity bounds: both variants of `calcularSimilaridade`
(the one in `src/js/speechRecognition.js` and the fuzzy-credit one in
`src/unnamed/part_001`) return a value in `[0, 1]` for all inputs; they return
`0` when the spoken text has no word of length > 2; and they return `1` when
the spoken text has at least one word of length > 2 and every such word occurs
exactly among the element's words of length > 2. -/
theorem claim_C6_coverage_similarity_bounds (s e : JSStr) :
    (0 ≤ calcularSimilaridade s e ∧ calcularSimilaridade s e ≤ 1 ∧
      0 ≤ calcularSimilaridadeV1 s e ∧ calcularSimilaridadeV1 s e ≤ 1) ∧
    (palavrasMaioresQue 2 s = [] →
      calcularSimilaridade s e = 0 ∧ calcularSimilaridadeV1 s e = 0) ∧
    (palavrasMaioresQue 2 s ≠ [] →
      (∀ w ∈ palavrasMaioresQue 2 s, w ∈ palavrasMaioresQue 2 e) →
        calcularSimilaridade s e = 1 ∧ calcularSimilaridadeV1 s e = 1) := by
  unfold calcularSimilaridade calcularSimilaridadeV1
  refine ⟨?_, ?_, ?_⟩
  · split_ifs with h
    · norm_num
    have hn : 0 < ((palavrasMaioresQue 2 s).length : ℚ) := by
      have : 0 < (palavrasMaioresQue 2 s).length := Nat.pos_of_ne_zero h
      exact_mod_cast this
    refine ⟨by positivity, ?_, ?_, ?_⟩
    · rw [div_le_one hn]
      exact_mod_cast List.length_filter_le _ _
    · exact div_nonneg (sum_credito_nonneg _ _) (le_of_lt hn)
    · rw [div_le_one hn]
      exact sum_credito_le_length _ _
  · intro h
    rw [if_pos (by simp [h]), if_pos (by simp [h])]
    exact ⟨rfl, rfl⟩
  · intro h hall
    have hlen : (palavrasMaioresQue 2 s).length ≠ 0 := by
      exact Nat.pos_iff_ne_zero.mp (List.length_pos.mpr h)
    have hn : ((palavrasMaioresQue 2 s).length : ℚ) ≠ 0 := by exact_mod_cast hlen
    rw [if_neg hlen, if_neg hlen]
    constructor
    · rw [List.filter_eq_self.mpr (by intro a ha; exact decide_eq_true (hall a ha))]
      exact div_self hn
    · rw [sum_credito_all_exact _ _ hall]
      exact div_self hn

/-- Witness for C6 at concrete inputs: a spoken text with no word of length
> 2 scores 0, and a spoken text fully covered by the element scores 1. -/
theorem claim_C6_coverage_similarity_bounds_witness :
    calcularSimilaridade (strCodes "e ai oi") (strCodes "qualquer coisa") = 0 ∧
    calcularSimilaridade (strCodes "bom dia brasil")
      (strCodes "brasil hoje tem bom dia") = 1 ∧
    calcularSimilaridadeV1 (strCodes "bom dia brasil")
      (strCodes "brasil hoje tem bom dia") = 1 := by
  have h1 := claim_C6_coverage_similarity_bounds (strCodes "e ai oi")
    (strCodes "qualquer coisa")
  have h2 := claim_C6_coverage_similarity_bounds (strCodes "bom dia brasil")
    (strCodes "brasil hoje tem bom dia")
  exact ⟨(h1.2.1 (by decide)).1, (h2.2.2 (by decide) (by decide)).1,
    (h2.2.2 (by decide) (by decide)).2⟩

/-! ## Fuzzy word matching (C7) -/

lemma mismatches_self (a : JSStr) : mismatches a a = 0 := by
  induction a with
  | nil => rfl
  | cons c t ih =>
    simp only [mismatches, List.zip_cons_cons, List.filter_cons] at *
    simpa using ih

lemma lenGap_self (a : JSStr) : lenGap a a = 0 := by simp [lenGap]

/-- C7.  `fuzzyMatch` (from `src/unnamed/part_001`) returns true on equal
words; false when the length difference exceeds 2; requires exact equality
when either word has length ≤ 3; and otherwise accepts exactly when the count
of positional mismatches over the common prefix plus the length difference,
divided by the longer length, is at most 0.3. -/
theorem claim_C7_fuzzy_match_rules (a b : JSStr) :
    (a = b → fuzzyMatch a b = true) ∧
    (2 < lenGap a b → fuzzyMatch a b = false) ∧
    (lenGap a b ≤ 2 → (a.length ≤ 3 ∨ b.length ≤ 3) →
      (fuzzyMatch a b = true ↔ a = b)) ∧
    (lenGap a b ≤ 2 → 3 < a.length → 3 < b.length →
      (fuzzyMatch a b = true ↔
        ((mismatches a b + lenGap a b : Nat) : ℚ) / ((max a.length b.length : Nat) : ℚ)
          ≤ 3 / 10)) := by
  unfold fuzzyMatch
  refine ⟨fun h => by rw [if_pos h], ?_, ?_, ?_⟩
  · intro h
    have hab : a ≠ b := fun hc => by simp [hc, lenGap_self] at h
    rw [if_neg hab, if_pos h]
  · intro hgap hshort
    by_cases hab : a = b
    · simp [hab]
    · rw [if_neg hab, if_neg (by omega : ¬ 2 < lenGap a b), if_pos hshort]
      simp [hab]
  · intro hgap ha hb
    by_cases hab : a = b
    · subst hab
      rw [if_pos rfl]
      simp only [true_iff, mismatches_self, lenGap_self]
      rw [Nat.add_zero, Nat.cast_zero, zero_div]
      norm_num
    · rw [if_neg hab, if_neg (by omega : ¬ 2 < lenGap a b),
        if_neg (by omega : ¬ (a.length ≤ 3 ∨ b.length ≤ 3))]
      exact decide_eq_true_iff

/-- Witness for C7 at concrete inputs: one fuzzy acceptance (1 difference over
length 7), one rejection by the length-difference rule, one short-word
rejection. -/
theorem claim_C7_fuzzy_match_rules_witness :
    fuzzyMatch (strCodes "palavra") (strCodes "galavra") = true ∧
    fuzzyMatch (strCodes "oi") (strCodes "oi tudo") = false ∧
    fuzzyMatch (strCodes "oie") (strCodes "oi") = false := by
  have h1 := claim_C7_fuzzy_match_rules (strCodes "palavra") (strCodes "galavra")
  have h2 := claim_C7_fuzzy_match_rules (strCodes "oi") (strCodes "oi tudo")
  have h3 := claim_C7_fuzzy_match_rules (strCodes "oie") (strCodes "oi")
  refine ⟨(h1.2.2.2 (by decide) (by decide) (by decide)).mpr ?_,
    h2.2.1 (by decide), ?_⟩
  · have hm : mismatches (strCodes "palavra") (strCodes "galavra") = 1 := by decide
    have hg : lenGap (strCodes "palavra") (strCodes "galavra") = 0 := by decide
    have hx : max (strCodes "palavra").length (strCodes "galavra").length = 7 := by decide
    rw [hm, hg, hx]
    norm_num
  · have h := h3.2.2.1 (by decide) (Or.inr (by decide))
    exact Bool.eq_false_iff.mpr (fun hc => absurd (h.mp hc) (by decide))

/-! ## Normalization idempotence (C9) -/

lemma jsToLower_not_lowerable (c : Nat) : ¬ isLowerableCode (jsToLower c) := by
  unfold jsToLower
  split_ifs with h
  · unfold isLowerableCode at h ⊢; omega
  · exact h

lemma nfdTable_keys_range : ∀ p ∈ nfdTable, 0xE0 ≤ p.1 ∧ p.1 ≤ 0xFF := by decide

lemma nfdTable_vals_not_lowerable : ∀ p ∈ nfdTable, ∀ d ∈ p.2, ¬ isLowerableCode d := by
  decide

lemma mem_nfdChar_not_lowerable {c d : Nat} (hc : ¬ isLowerableCode c)
    (hd : d ∈ nfdChar c) : ¬ isLowerableCode d := by
  unfold nfdChar at hd
  cases hfind : nfdTable.find? (fun p => p.1 = c) with
  | none =>
    rw [hfind] at hd
    simp only [Option.map_none', Option.getD_none, List.mem_singleton] at hd
    exact hd ▸ hc
  | some p =>
    rw [hfind] at hd
    simp only [Option.map_some', Option.getD_some] at hd
    exact nfdTable_vals_not_lowerable p (List.mem_of_find?_eq_some hfind) d hd

lemma nfdChar_eq_self_of_range {c : Nat} (h : c < 0xE0 ∨ 0xFF < c) :
    nfdChar c = [c] := by
  unfold nfdChar
  rw [List.find?_eq_none.mpr]
  · rfl
  · intro p _hp hpc
    have hk := nfdTable_keys_range p _hp
    simp only [decide_eq_true_eq] at hpc
    omega

lemma wordChar_lt {c : Nat} (h : jsIsWordChar c = true) : c < 0x7B := by
  simp only [jsIsWordChar, decide_eq_true_eq] at h
  omega

lemma spaceChar_facts {c : Nat} (h : jsIsSpace c = true) :
    (c < 0xE0 ∨ 0xFF < c) ∧ ¬ (0x300 ≤ c ∧ c ≤ 0x36F) := by
  have h2 : c ∈ jsSpaceCodes := by simpa [jsIsSpace] using h
  fin_cases h2 <;> omega

lemma spaceChar_range {c : Nat} (h : jsIsSpace c = true) : c < 0xE0 ∨ 0xFF < c :=
  (spaceChar_facts h).1

lemma goodChar_cases {c : Nat} (h : (jsIsWordChar c || jsIsSpace c) = true) :
    jsIsWordChar c = true ∨ jsIsSpace c = true := by
  cases hw : jsIsWordChar c with
  | true => exact Or.inl rfl
  | false => exact Or.inr (by simpa [hw] using h)

lemma goodChar_not_comb {c : Nat} (h : (jsIsWordChar c || jsIsSpace c) = true) :
    (!isCombiningMark c) = true := by
  rcases goodChar_cases h with hw | hs
  · have := wordChar_lt hw
    simp only [isCombiningMark, Bool.not_eq_true', decide_eq_false_iff_not]
    omega
  · have := (spaceChar_facts hs).2
    simp only [isCombiningMark, Bool.not_eq_true', decide_eq_false_iff_not]
    omega

lemma goodChar_nfd {c : Nat} (h : (jsIsWordChar c || jsIsSpace c) = true) :
    nfdChar c = [c] := by
  rcases goodChar_cases h with hw | hs
  · exact nfdChar_eq_self_of_range (Or.inl (by have := wordChar_lt hw; omega))
  · exact nfdChar_eq_self_of_range (spaceChar_range hs)

lemma notLowerable_toLower {c : Nat} (h : ¬ isLowerableCode c) : jsToLower c = c := by
  unfold jsToLower; rw [if_neg h]

lemma map_eq_self_of {α : Type} {f : α → α} {l : List α} (h : ∀ c ∈ l, f c = c) :
    l.map f = l := by
  induction l with
  | nil => rfl
  | cons c t ih => simp [h c (by simp), ih (fun d hd => h d (by simp [hd]))]

lemma flatMap_eq_self {f : Nat → List Nat} {l : JSStr} (h : ∀ c ∈ l, f c = [c]) :
    l.flatMap f = l := by
  induction l with
  | nil => rfl
  | cons c t ih =>
    simp [List.flatMap_cons, h c (by simp), ih (fun d hd => h d (by simp [hd]))]

lemma jsTrim_eq (l : JSStr) :
    jsTrim l = List.rdropWhile jsIsSpace (l.dropWhile jsIsSpace) := rfl

lemma mem_of_mem_jsTrim {c : Nat} {l : JSStr} (h : c ∈ jsTrim l) : c ∈ l := by
  rw [jsTrim_eq] at h
  exact ((List.rdropWhile_prefix _ _).sublist.subset h) |>
    fun hh => (List.dropWhile_sublist _).subset hh

lemma jsTrim_idem (l : JSStr) : jsTrim (jsTrim l) = jsTrim l := by
  rw [jsTrim_eq, jsTrim_eq]
  have hdm : (l.dropWhile jsIsSpace).dropWhile jsIsSpace = l.dropWhile jsIsSpace :=
    List.dropWhile_idempotent _ _
  set m := l.dropWhile jsIsSpace with hm
  have hdrm : (List.rdropWhile jsIsSpace m).dropWhile jsIsSpace
      = List.rdropWhile jsIsSpace m := by
    obtain ⟨t, ht⟩ := List.rdropWhile_prefix jsIsSpace m
    cases hr : List.rdropWhile jsIsSpace m with
    | nil => rfl
    | cons c r =>
      rw [hr] at ht
      rw [List.dropWhile_cons]
      split_ifs with hc
      · exfalso
        rw [← ht, List.cons_append, List.dropWhile_cons, if_pos hc] at hdm
        have hlen := congrArg List.length hdm
        have hle : (List.dropWhile jsIsSpace (r ++ t)).length ≤ (r ++ t).length :=
          (List.dropWhile_sublist _).length_le
        simp only [List.length_cons, List.length_append] at hlen hle
        omega
      · rfl
  rw [hdrm, List.rdropWhile_idempotent]

/-- The characters that can appear in the output of `normalizarTexto`:
word-or-space characters that `toLowerCase` leaves unchanged. -/
def goodOut (c : Nat) : Prop :=
  (jsIsWordChar c || jsIsSpace c) = true ∧ ¬ isLowerableCode c

lemma normalizarTexto_mem {x : JSStr} : ∀ c ∈ normalizarTexto x, goodOut c := by
  intro c hc
  unfold normalizarTexto at hc
  have h1 := mem_of_mem_jsTrim hc
  have h2 := List.of_mem_filter h1
  have h3 := List.mem_of_mem_filter h1
  have h4 := List.mem_of_mem_filter h3
  obtain ⟨d, hd, hcd⟩ := List.mem_flatMap.mp h4
  obtain ⟨e, _he, hde⟩ := List.mem_map.mp hd
  exact ⟨h2, mem_nfdChar_not_lowerable (hde ▸ jsToLower_not_lowerable e) hcd⟩

lemma normalizarTexto_of_good {l : JSStr} (h : ∀ c ∈ l, goodOut c) :
    normalizarTexto l = jsTrim l := by
  unfold normalizarTexto
  rw [map_eq_self_of (fun c hc => notLowerable_toLower (h c hc).2),
    flatMap_eq_self (fun c hc => goodChar_nfd (h c hc).1),
    List.filter_eq_self.mpr (fun c hc => goodChar_not_comb (h c hc).1),
    List.filter_eq_self.mpr (fun c hc => (h c hc).1)]

lemma jsTrim_normalizarTexto (x : JSStr) :
    jsTrim (normalizarTexto x) = normalizarTexto x := by
  unfold normalizarTexto
  exact jsTrim_idem _

/-- The no-two-adjacent-whitespace relation that `collapseWs` establishes. -/
def semEspacosDuplos (a b : Nat) : Prop := ¬ (jsIsSpace a = true ∧ jsIsSpace b = true)

lemma collapseWsGo_cons_notspace (c : Nat) (t : JSStr) (b : Bool)
    (hc : jsIsSpace c = false) :
    collapseWsGo (c :: t) b = c :: collapseWsGo t false := by
  simp [collapseWsGo, hc]

lemma collapseWsGo_cons_space_false (c : Nat) (t : JSStr) (hc : jsIsSpace c = true) :
    collapseWsGo (c :: t) false = 0x20 :: collapseWsGo t true := by
  simp [collapseWsGo, hc]

lemma collapseWsGo_cons_space_true (c : Nat) (t : JSStr) (hc : jsIsSpace c = true) :
    collapseWsGo (c :: t) true = collapseWsGo t true := by
  simp [collapseWsGo, hc]

lemma mem_collapseWsGo {c : Nat} :
    ∀ {l : JSStr} {b : Bool}, c ∈ collapseWsGo l b →
      (c ∈ l ∧ jsIsSpace c = false) ∨ c = 0x20 := by
  intro l
  induction l with
  | nil => intro b h; simp [collapseWsGo] at h
  | cons d t ih =>
    intro b h
    cases hd : jsIsSpace d with
    | true =>
      cases b with
      | false =>
        rw [collapseWsGo_cons_space_false d t hd] at h
        rcases List.mem_cons.mp h with hc | hc
        · exact Or.inr hc
        · rcases ih hc with ⟨h1, h2⟩ | h1
          · exact Or.inl ⟨List.mem_cons_of_mem _ h1, h2⟩
          · exact Or.inr h1
      | true =>
        rw [collapseWsGo_cons_space_true d t hd] at h
        rcases ih h with ⟨h1, h2⟩ | h1
        · exact Or.inl ⟨List.mem_cons_of_mem _ h1, h2⟩
        · exact Or.inr h1
    | false =>
      rw [collapseWsGo_cons_notspace d t b hd] at h
      rcases List.mem_cons.mp h with hc | hc
      · exact Or.inl ⟨by simp [hc], by rw [hc]; exact hd⟩
      · rcases ih hc with ⟨h1, h2⟩ | h1
        · exact Or.inl ⟨List.mem_cons_of_mem _ h1, h2⟩
        · exact Or.inr h1

lemma head_collapseWsGo_true :
    ∀ {l : JSStr}, ∀ d ∈ (collapseWsGo l true).head?, jsIsSpace d = false := by
  intro l
  induction l with
  | nil => intro d hd; simp [collapseWsGo] at hd
  | cons c t ih =>
    intro d hd
    cases hc : jsIsSpace c with
    | true =>
      rw [collapseWsGo_cons_space_true c t hc] at hd
      exact ih d hd
    | false =>
      rw [collapseWsGo_cons_notspace c t true hc] at hd
      simp only [List.head?_cons, Option.mem_def, Option.some.injEq] at hd
      rw [← hd]; exact hc

lemma chain'_collapseWsGo :
    ∀ (l : JSStr) (b : Bool), List.Chain' semEspacosDuplos (collapseWsGo l b) := by
  intro l
  induction l with
  | nil => intro b; simp [collapseWsGo]
  | cons c t ih =>
    intro b
    cases hc : jsIsSpace c with
    | true =>
      cases b with
      | false =>
        rw [collapseWsGo_cons_space_false c t hc, List.chain'_cons']
        refine ⟨?_, ih true⟩
        intro y hy
        have hny := head_collapseWsGo_true y hy
        exact fun hcon => by rw [hny] at hcon; exact absurd hcon.2 (by simp)
      | true =>
        rw [collapseWsGo_cons_space_true c t hc]
        exact ih true
    | false =>
      rw [collapseWsGo_cons_notspace c t b hc, List.chain'_cons']
      exact ⟨fun y _ => fun hcon => by rw [hc] at hcon; exact absurd hcon.1 (by simp),
        ih false⟩

lemma collapseWsGo_eq_self :
    ∀ {l : JSStr}, (∀ c ∈ l, jsIsSpace c = true → c = 0x20) →
      List.Chain' semEspacosDuplos l → collapseWsGo l false = l := by
  intro l
  induction l with
  | nil => intro _ _; rfl
  | cons c t ih =>
    intro h20 hch
    cases hc : jsIsSpace c with
    | true =>
      rw [collapseWsGo_cons_space_false c t hc]
      have hc20 : c = 0x20 := h20 c (by simp) hc
      have htail : collapseWsGo t true = t := by
        cases t with
        | nil => rfl
        | cons d t2 =>
          have hrel := (List.chain'_cons'.mp hch).1 d (by simp)
          have hd : jsIsSpace d = false := by
            cases hdd : jsIsSpace d with
            | false => rfl
            | true => exact absurd ⟨hc, hdd⟩ hrel
          rw [collapseWsGo_cons_notspace d t2 true hd]
          have hih := ih (fun e he hs => h20 e (by simp [he]) hs)
            (List.chain'_cons'.mp hch).2
          rw [collapseWsGo_cons_notspace d t2 false hd] at hih
          have ht2 : collapseWsGo t2 false = t2 := by injection hih
          rw [ht2]
      rw [hc20, htail]
    | false =>
      rw [collapseWsGo_cons_notspace c t false hc]
      exact congrArg (c :: .) (ih (fun e he hs => h20 e (by simp [he]) hs)
        (List.chain'_cons'.mp hch).2)

lemma chain'_jsTrim {R : Nat → Nat → Prop} {l : JSStr} (h : List.Chain' R l) :
    List.Chain' R (jsTrim l) := by
  rw [jsTrim_eq]
  exact h.infix ((List.rdropWhile_prefix _ _).isInfix.trans
    (List.dropWhile_suffix _).isInfix)

lemma mem_pipelineV1 {x : JSStr} :
    ∀ d ∈ (((x.map jsToLower).flatMap nfdChar).filter
      (fun c => !isCombiningMark c)).map
        (fun c => if jsIsWordChar c || jsIsSpace c then c else 0x20),
      ¬ isLowerableCode d := by
  intro d hd
  obtain ⟨e, he, hde⟩ := List.mem_map.mp hd
  have he2 := List.mem_of_mem_filter he
  obtain ⟨a, ha, hea⟩ := List.mem_flatMap.mp he2
  obtain ⟨b, _hb, hab⟩ := List.mem_map.mp ha
  have hne : ¬ isLowerableCode e :=
    mem_nfdChar_not_lowerable (hab ▸ jsToLower_not_lowerable b) hea
  rw [← hde]
  split_ifs
  · exact hne
  · decide

lemma normalizarTextoV1_mem {x : JSStr} : ∀ c ∈ normalizarTextoV1 x,
    goodOut c ∧ (jsIsSpace c = true → c = 0x20) := by
  intro c hc
  unfold normalizarTextoV1 collapseWs at hc
  have h1 := mem_of_mem_jsTrim hc
  rcases mem_collapseWsGo h1 with ⟨h2, h3⟩ | h2
  · refine ⟨⟨?_, mem_pipelineV1 c h2⟩, fun hs => by rw [h3] at hs; cases hs⟩
    obtain ⟨e, _he, hde⟩ := List.mem_map.mp h2
    rw [← hde]
    split_ifs with hg
    · exact hg
    · decide
  · subst h2
    exact ⟨⟨by decide, by decide⟩, fun _ => rfl⟩

lemma normalizarTextoV1_chain (x : JSStr) :
    List.Chain' semEspacosDuplos (normalizarTextoV1 x) := by
  unfold normalizarTextoV1 collapseWs
  exact chain'_jsTrim (chain'_collapseWsGo _ false)

lemma normalizarTextoV1_of_good {l : JSStr} (hg : ∀ c ∈ l, goodOut c)
    (h20 : ∀ c ∈ l, jsIsSpace c = true → c = 0x20)
    (hch : List.Chain' semEspacosDuplos l) :
    normalizarTextoV1 l = jsTrim l := by
  unfold normalizarTextoV1 collapseWs
  rw [map_eq_self_of (fun c hc => notLowerable_toLower (hg c hc).2),
    flatMap_eq_self (fun c hc => goodChar_nfd (hg c hc).1),
    List.filter_eq_self.mpr (fun c hc => goodChar_not_comb (hg c hc).1),
    map_eq_self_of (fun c hc => if_pos (hg c hc).1),
    collapseWsGo_eq_self h20 hch]

/-- C9.  Normalization is idempotent: applying `normalizarTexto` (either the
`src/js/speechRecognition.js` version or the `src/unnamed/part_001` version,
which additionally collapses whitespace runs) twice gives the same result as
applying it once, for every input string. -/
theorem claim_C9_normalization_idempotent (x : JSStr) :
    normalizarTexto (normalizarTexto x) = normalizarTexto x ∧
    normalizarTextoV1 (normalizarTextoV1 x) = normalizarTextoV1 x := by
  constructor
  · rw [normalizarTexto_of_good normalizarTexto_mem, jsTrim_normalizarTexto]
  · have hmem := @normalizarTextoV1_mem x
    rw [normalizarTextoV1_of_good (fun c hc => (hmem c hc).1)
      (fun c hc => (hmem c hc).2) (normalizarTextoV1_chain x)]
    unfold normalizarTextoV1
    exact jsTrim_idem _

/-! ## Data model: machine states, elements, configuration -/

/-- `STATE` from `src/js/speechRecognition.js`. -/
inductive MachineState where
  | SEARCHING
  | LOCKED
deriving DecidableEq

/-- `SPEAKER_MODE` from `src/js/speechRecognition.js`. -/
inductive SpeakerModeT where
  | ANCHOR
  | EXTERNAL
deriving DecidableEq

/-- One matchable unit of the script, carrying the data the core reads from
the DOM node: its `innerText` and its layout offsets (used only to compute
scroll targets). -/
structure Elemento where
  texto : JSStr
  offsetTop : ℚ
  offsetHeight : ℚ
deriving DecidableEq

/-- `CONFIG` from `src/js/speechRecognition.js`; decimal literals are exact
rationals (`0.20 = 1/5`, `0.15 = 3/20`, `0.4 = 2/5`). -/
structure Config where
  searchThreshold : ℚ
  lockedThreshold : ℚ
  wordWindow : Nat
  lookaheadElements : Nat
  minWordsForMatch : Nat
  maxConsecutiveMisses : Nat
  maxBufferWords : Nat
  debounceMs : Nat
  hybridJumpThreshold : ℚ
  hybridJumpMinProgress : ℚ

def CONFIG : Config :=
  { searchThreshold := mkRat 1 5
    lockedThreshold := mkRat 3 20
    wordWindow := 15
    lookaheadElements := 5
    minWordsForMatch := 1
    maxConsecutiveMisses := 2
    maxBufferWords := 60
    debounceMs := 200
    hybridJumpThreshold := 500
    hybridJumpMinProgress := mkRat 2 5 }

/-- `LINK_CONFIG.maxExternalElements`. -/
def maxExternalElements : Nat := 50

/-- `MAX_PARCIAIS_SEM_MATCH`. -/
def MAX_PARCIAIS_SEM_MATCH : Nat := 5

/-- `Math.round`: round half toward positive infinity. -/
def jsRound (q : ℚ) : Int := ⌊q + mkRat 1 2⌋

/-! ## AutoScrollController -/

/-- The mutable state of `AutoScrollController` (`src/js/speechRecognition.js`).
`lastWordCount`/`lastTimestamp` (wall-clock bookkeeping) and `currentElement`
(a DOM handle that is only written) are not modelled; `updateInterval` is the
external timer. -/
structure ScrollState where
  isActive : Bool
  isPaused : Bool
  lastProgressoEnviado : ℚ
  targetOffset : ℚ
  currentVelocity : ℚ
deriving DecidableEq

/-- `AutoScrollController.VELOCITY_GAIN = 0.022`. -/
def VELOCITY_GAIN : ℚ := mkRat 11 500

/-- `AutoScrollController.MAX_VELOCITY`. -/
def MAX_VELOCITY : ℚ := 9

/-- `AutoScrollController.DEAD_ZONE`. -/
def DEAD_ZONE : ℚ := 25

/-- `AutoScrollController.SMOOTH_FACTOR = 0.3`. -/
def SMOOTH_FACTOR : ℚ := mkRat 3 10

namespace AutoScroll

/-- `AutoScrollController.softStop`: pause but keep control. -/
def softStop (s : ScrollState) : ScrollState := { s with isPaused := true }

/-- `AutoScrollController.softResume`. -/
def softResume (s : ScrollState) : ScrollState :=
  if s.isActive then { s with isPaused := false } else s

/-- `AutoScrollController.pause`. -/
def pause (s : ScrollState) : ScrollState :=
  if s.isActive ∧ ¬ s.isPaused then { s with isPaused := true } else s

/-- `AutoScrollController.resume`. -/
def resume (s : ScrollState) : ScrollState :=
  if s.isActive ∧ s.isPaused then { s with isPaused := false } else s

/-- `AutoScrollController.reset` (baselines other than wall-clock time). -/
def reset (s : ScrollState) : ScrollState :=
  { s with isPaused := false, lastProgressoEnviado := 0 }

/-- `AutoScrollController.start`: the velocity is kept when the controller was
already active (soft transition), zeroed otherwise. -/
def start (s : ScrollState) : ScrollState :=
  { s with
    isActive := true
    isPaused := false
    lastProgressoEnviado := 0
    targetOffset := 0
    currentVelocity := if s.isActive then s.currentVelocity else 0 }

/-- `AutoScrollController.shouldScroll`. -/
def shouldScroll (s : ScrollState) : Bool := s.isActive && !s.isPaused

/-- `AutoScrollController.shouldScrollTo`: hysteresis of 2% on the emitted
progress; updates `lastProgressoEnviado` exactly when it returns true. -/
def shouldScrollTo (s : ScrollState) (novoProgresso : ℚ) : ScrollState × Bool :=
  if novoProgresso > s.lastProgressoEnviado + mkRat 1 50 then
    ({ s with lastProgressoEnviado := novoProgresso }, true)
  else (s, false)

/-- `AutoScrollController.setTargetOffset`. -/
def setTargetOffset (s : ScrollState) (offset : ℚ) : ScrollState :=
  { s with targetOffset := offset }

/-- `AutoScrollController.setTargetFromElement`.  The hybrid-jump branch only
emits an external `moveTeleprompterToOffset` command; the model state change
is the target update, which happens in every case. -/
def setTargetFromElement (s : ScrollState) (elemento : Elemento) (progresso : ℚ) :
    ScrollState :=
  { s with targetOffset := elemento.offsetTop + elemento.offsetHeight * progresso }

/-- `AutoScrollController.updateVelocity`, the controller tick.  Inputs are the
current render position (`getTeleprompterCurrentPos`) and the converted target
scroll position (`convertOffsetToScrollPos(targetOffset)`); the output is the
new state together with the velocity command emitted to
`teleprompterAutoScroll.setVelocity` (`none` when no command is emitted). -/
def updateVelocity (s : ScrollState) (currPos targetScrollPos : ℚ) :
    ScrollState × Option Int :=
  if ¬ s.isActive = true ∨ s.isPaused = true then
    if s.currentVelocity > 0 then
      let v := max 0 (s.currentVelocity - mkRat 1 2)
      ({ s with currentVelocity := v }, some (jsRound v))
    else (s, none)
  else
    let diferenca := currPos - targetScrollPos
    let s2 :=
      if |diferenca| < DEAD_ZONE then
        { s with currentVelocity := 0 }
      else if diferenca > 0 then
        let velocidadeAlvo := min MAX_VELOCITY (diferenca * VELOCITY_GAIN)
        { s with currentVelocity :=
            s.currentVelocity * (1 - SMOOTH_FACTOR) + velocidadeAlvo * SMOOTH_FACTOR }
      else
        let brakeForce := min MAX_VELOCITY (|diferenca| * mkRat 1 10)
        { s with currentVelocity := max 0 (s.currentVelocity - brakeForce) }
    (s2, some (jsRound (max 0 (min MAX_VELOCITY s2.currentVelocity))))

end AutoScroll

/-! ## Dead zone behaviour (C8) -/

lemma mkRat_as_div (n : Int) (d : Nat) : mkRat n d = (n : ℚ) / (d : ℚ) := by
  rw [Rat.mkRat_eq_divInt, Rat.divInt_eq_div]
  norm_cast

/-- C8, counterexample to the claim as stated.  The claim quantifies over
every velocity-controller tick, but on a tick where the controller is paused
(`softStop`/`pause`, e.g. after a miss streak) the dead-zone branch is not
reached: with `currentVelocity = 3` and `currentPosition = targetScrollPosition`
exactly, the tick decrements the velocity by `0.5` and emits
`Math.round(2.5) = 3`, not `0`, and the smoothed velocity becomes `2.5`,
not `0`. -/
theorem claim_C8_dead_zone_counterexample :
    |(100 : ℚ) - 100| < DEAD_ZONE ∧
    (AutoScroll.updateVelocity ⟨true, true, 0, 0, 3⟩ 100 100).2 = some 3 ∧
    (AutoScroll.updateVelocity ⟨true, true, 0, 0, 3⟩ 100 100).1.currentVelocity ≠ 0 := by
  with_unfolding_all decide

/-- C8, amended: on every velocity-controller tick on which the controller is
active and not paused, if the absolute difference between the current render
position and the converted target scroll position is strictly below
`DEAD_ZONE = 25` (in particular when they are exactly equal), the smoothed
velocity is set to 0 and the velocity command emitted to the scroll actuator
is 0. -/
theorem claim_C8_dead_zone_amended (s : ScrollState) (currPos targetScrollPos : ℚ)
    (hA : s.isActive = true) (hP : s.isPaused = false)
    (hdz : |currPos - targetScrollPos| < DEAD_ZONE) :
    (AutoScroll.updateVelocity s currPos targetScrollPos).1.currentVelocity = 0 ∧
    (AutoScroll.updateVelocity s currPos targetScrollPos).2 = some 0 := by
  unfold AutoScroll.updateVelocity
  rw [if_neg (by simp [hA, hP])]
  simp only [if_pos hdz]
  refine ⟨trivial, ?_⟩
  have h1 : min MAX_VELOCITY (0 : ℚ) = 0 := by
    rw [min_eq_right]
    unfold MAX_VELOCITY
    norm_num
  have h2 : max (0 : ℚ) 0 = 0 := by norm_num
  simp only [h1, h2]
  have h3 : jsRound 0 = 0 := by
    unfold jsRound
    rw [mkRat_as_div]
    rw [Int.floor_eq_iff]
    constructor <;> norm_num
  rw [h3]

/-- Witness for the amended C8 at a concrete tick: active, unpaused, positions
exactly equal. -/
theorem claim_C8_dead_zone_amended_witness :
    (AutoScroll.updateVelocity ⟨true, false, 0, 0, 3⟩ 100 100).1.currentVelocity = 0 ∧
    (AutoScroll.updateVelocity ⟨true, false, 0, 0, 3⟩ 100 100).2 = some 0 :=
  claim_C8_dead_zone_amended ⟨true, false, 0, 0, 3⟩ 100 100 rfl rfl
    (by with_unfolding_all decide)

/-! ## Tag and link-marker regexes

The regexes of `TAG_CONFIG` and `LINK_CONFIG` are compiled to token lists and
matched greedily without backtracking.  This is equivalent to the JavaScript
regex engine on these particular patterns because, in each of them, every
repeated character class is disjoint from the characters the following token
can start with (a space run is always followed by a non-space literal, `[^)]+`
by `)`, a digit run by a space or `)`, the optional `(ERA)?` by a space or a
digit), so the greedy match is the unique one. -/

/-- The JavaScript regex class `\d`. -/
def jsIsDigit (c : Nat) : Bool := decide (0x30 ≤ c ∧ c ≤ 0x39)

/-- The class `[A-Z0-9]` (case-sensitive, used by `hashtagMaiusculo`). -/
def isUpperAlnum (c : Nat) : Bool :=
  decide ((0x41 ≤ c ∧ c ≤ 0x5A) ∨ (0x30 ≤ c ∧ c ≤ 0x39))

/-- Case-insensitive match of a character against a lowercase pattern letter. -/
def matchesCI (c pat : Nat) : Bool :=
  decide (c = pat ∨ (0x61 ≤ pat ∧ pat ≤ 0x7A ∧ c + 0x20 = pat))

/-- One token of a compiled regex. -/
inductive PadraoTok where
  | lit (c : Nat)
  | litCI (c : Nat)
  | ws0
  | ws1
  | digits0
  | digits1
  | notCh1 (c : Nat)
  | upperAlnum1
  | maybeCI (s : JSStr)
deriving DecidableEq

/-- Greedy matcher: consumes a prefix of the input, returning the rest. -/
def matchToks : List PadraoTok → JSStr → Option JSStr
  | [], rest => some rest
  | .lit c :: toks, rest =>
    match rest with
    | [] => none
    | d :: r => if d = c then matchToks toks r else none
  | .litCI c :: toks, rest =>
    match rest with
    | [] => none
    | d :: r => if matchesCI d c then matchToks toks r else none
  | .ws0 :: toks, rest => matchToks toks (rest.dropWhile jsIsSpace)
  | .ws1 :: toks, rest =>
    match rest with
    | [] => none
    | d :: r => if jsIsSpace d then matchToks toks (r.dropWhile jsIsSpace) else none
  | .digits0 :: toks, rest => matchToks toks (rest.dropWhile jsIsDigit)
  | .digits1 :: toks, rest =>
    match rest with
    | [] => none
    | d :: r => if jsIsDigit d then matchToks toks (r.dropWhile jsIsDigit) else none
  | .notCh1 c :: toks, rest =>
    match rest with
    | [] => none
    | d :: r =>
      if d ≠ c then matchToks toks (r.dropWhile (fun e => e ≠ c)) else none
  | .upperAlnum1 :: toks, rest =>
    match rest with
    | [] => none
    | d :: r =>
      if isUpperAlnum d then matchToks toks (r.dropWhile isUpperAlnum) else none
  | .maybeCI s :: toks, rest =>
    match ciPrefix s rest with
    | some r => matchToks toks r
    | none => matchToks toks rest
where
  /-- Consume a case-insensitive literal prefix. -/
  ciPrefix : JSStr → JSStr → Option JSStr
    | [], rest => some rest
    | _ :: _, [] => none
    | c :: s, d :: r => if matchesCI d c then ciPrefix s r else none

/-- `regex.test` for an unanchored pattern: some suffix has a matching
prefix. -/
def buscaPadrao (toks : List PadraoTok) : JSStr → Bool
  | [] => (matchToks toks []).isSome
  | c :: r => (matchToks toks (c :: r)).isSome || buscaPadrao toks r

/-- Full-string match for a `^...$`-anchored pattern. -/
def casaExato (toks : List PadraoTok) (l : JSStr) : Bool :=
  match matchToks toks l with
  | some [] => true
  | _ => false

/-- A case-insensitive literal word as tokens. -/
def ciStr (s : String) : List PadraoTok := (strCodes s).map PadraoTok.litCI

/-- `LINK_CONFIG.entryMarkers`. -/
def entryMarkers : List (List PadraoTok) :=
  [[.lit 0x28, .ws0] ++ ciStr "abre" ++ [.ws1] ++ ciStr "link" ++ [.ws0, .lit 0x29],
   [.lit 0x28, .ws0] ++ ciStr "link" ++ [.ws0, .lit 0x29],
   [.lit 0x28, .lit 0x28, .ws0] ++ ciStr "abre" ++ [.ws1] ++ ciStr "link" ++
     [.ws0, .lit 0x29, .lit 0x29],
   [.lit 0x28, .ws0] ++ ciStr "abre" ++ [.ws1] ++ ciStr "som" ++ [.ws1] ++
     ciStr "do" ++ [.ws1] ++ ciStr "link" ++ [.ws0, .lit 0x29],
   [.lit 0x28, .ws0] ++ ciStr "abre" ++ [.ws1] ++ ciStr "som" ++ [.ws1] ++
     ciStr "link" ++ [.ws0, .lit 0x29],
   [.lit 0x28, .lit 0x28, .ws0] ++ ciStr "link" ++ [.ws0, .lit 0x29, .lit 0x29],
   [.lit 0x28] ++ ciStr "link" ++ [.ws1] ++ ciStr "link" ++ [.ws1] ++ ciStr "link"]

/-- `LINK_CONFIG.exitMarkers`. -/
def exitMarkers : List (List PadraoTok) :=
  [ciStr "deixa" ++ [.ws0, .lit 0x3A],
   [.lit 0x28, .ws0] ++ ciStr "fim" ++ [.ws1] ++ ciStr "link" ++ [.ws0, .lit 0x29],
   [.lit 0x28, .ws0] ++ ciStr "volta" ++ [.ws1, .lit 0x29],
   [.lit 0x28, .lit 0x28, .ws0] ++ ciStr "cam" ++
     [.ws0, .digits0, .ws0, .lit 0x29, .lit 0x29]]

/-- `isLinkEntryMarker` from `src/js/speechRecognition.js`. -/
def isLinkEntryMarker (texto : JSStr) : Bool :=
  texto ≠ [] && entryMarkers.any (fun p => buscaPadrao p texto)

/-- `isLinkExitMarker` from `src/js/speechRecognition.js`. -/
def isLinkExitMarker (texto : JSStr) : Bool :=
  texto ≠ [] && exitMarkers.any (fun p => buscaPadrao p texto)

/-- The enabled patterns of `TAG_CONFIG.patterns` (`textoEntreSetas` and
`textoEntreAsteriscos` ship disabled), in `Object.entries` order. -/
def tagPatterns : List (List PadraoTok) :=
  [[.ws0, .lit 0x28, .notCh1 0x29, .lit 0x29, .ws0],
   [.ws0, .lit 0x28, .lit 0x28, .notCh1 0x29, .lit 0x29, .lit 0x29, .ws0],
   [.ws0, .lit 0x28, .lit 0x28, .lit 0x28, .notCh1 0x29, .lit 0x29, .lit 0x29,
     .lit 0x29, .ws0],
   [.ws0, .lit 0x5B, .notCh1 0x5D, .lit 0x5D, .ws0],
   [.ws0, .lit 0x23, .upperAlnum1, .ws0],
   [.ws0] ++ ciStr "cam" ++ [.maybeCI (strCodes "era"), .ws0, .digits1, .ws0]]

/-- `isTagTecnica` from `src/js/speechRecognition.js`, with the shipped
configuration (all six default patterns enabled, no custom prefixes).  The
per-text cache is semantically transparent and not modelled. -/
def isTagTecnica (texto : JSStr) : Bool :=
  if jsTrim texto = [] then true
  else tagPatterns.any (fun p => casaExato p (jsTrim texto))

/-- The outcome of `analisarMarcadorFalante`. -/
inductive Marcador where
  | ENTER_EXTERNAL
  | EXIT_EXTERNAL
deriving DecidableEq

/-- `analisarMarcadorFalante` from `src/js/speechRecognition.js` applied to an
element's text: exit markers take priority over entry markers; blank text is
no marker.  The per-text cache is semantically transparent and not
modelled. -/
def analisarMarcadorFalante (texto : JSStr) : Option Marcador :=
  if jsTrim texto = [] then none
  else if isLinkExitMarker (jsTrim texto) then some .EXIT_EXTERNAL
  else if isLinkEntryMarker (jsTrim texto) then some .ENTER_EXTERNAL
  else none

/-! ## The shared mutable state and the sync state machine -/

/-- The module-level mutable variables of `src/js/speechRecognition.js` that
the matching pipeline reads or writes.  Wall-clock bookkeeping
(`lastSpeechTimestamp`, `currentSpeakerSession`, the debounce timer and the
script-change hash) is not modelled: speaker-session detection is disabled in
the source (`SPEAKER_PAUSE_THRESHOLD` is effectively infinite) and the rest
only schedules work. -/
structure VoiceState where
  currentState : MachineState
  speakerMode : SpeakerModeT
  currentElementIndex : Int
  currentWordPointer : Nat
  currentElementWords : List JSStr
  currentElementTotalWords : Nat
  consecutiveMisses : Nat
  parciaisSemMatchNoFim : Nat
  cumulativeFinalWords : List JSStr
  pendingFinalWords : List JSStr
  wordBuffer : List JSStr
  externalElementCount : Nat
  lastLinkMarkerIndex : Int
  scroll : ScrollState
deriving DecidableEq

/-- The result of one matching pass: the new state, plus the progress value of
the continuous-scroll command emitted by the same-element branch of
`verificarProximoElemento` (`none` when that branch emitted nothing). -/
structure PassoResultado where
  st : VoiceState
  emitidoProgresso : Option ℚ
deriving DecidableEq

/-- `scrollParaElemento`: an initial jump sets the target and emits an
external `moveTeleprompterToOffset`; a continuous update goes through
`setTargetFromElement`. -/
def scrollParaElemento (s : ScrollState) (elemento : Elemento) (progresso : ℚ)
    (isInitialJump : Bool) : ScrollState :=
  if isInitialJump then
    AutoScroll.setTargetOffset s (elemento.offsetTop + elemento.offsetHeight * progresso)
  else
    AutoScroll.setTargetFromElement s elemento progresso

/-- The candidate-selection loop shared by `buscarPosicaoInicial`,
`verificarProximoElemento` and `tentarDetectarRetornoAncora`: scan the given
element indices in order, skip technical tags and elements whose normalized
text is empty, and keep the first candidate of each strictly-better similarity
score that also reaches `threshold` (`melhorSimilaridade` starts at 0). -/
def melhorCandidatoAux (elementos : List Elemento) (textoNormalizado : JSStr)
    (threshold : ℚ) : List Nat → Option (Nat × Elemento × ℚ) →
      Option (Nat × Elemento × ℚ)
  | [], acc => acc
  | i :: idxs, acc =>
    let acc2 :=
      match elementos.get? i with
      | none => acc
      | some elem =>
        if isTagTecnica elem.texto then acc
        else
          let textoElemento := normalizarTexto elem.texto
          if textoElemento = [] then acc
          else
            let similaridade := calcularSimilaridade textoNormalizado textoElemento
            let melhorSimilaridade : ℚ :=
              match acc with
              | none => 0
              | some q => q.2.2
            if similaridade > melhorSimilaridade ∧ similaridade ≥ threshold then
              some (i, elem, similaridade)
            else acc
    melhorCandidatoAux elementos textoNormalizado threshold idxs acc2

/-- See `melhorCandidatoAux`. -/
def melhorCandidato (elementos : List Elemento) (textoNormalizado : JSStr)
    (threshold : ℚ) (idxs : List Nat) : Option (Nat × Elemento × ℚ) :=
  melhorCandidatoAux elementos textoNormalizado threshold idxs none

/-- The marker classification of the element at a document index
(`analisarMarcadorFalante(elementos[elementoIndex])`; a missing element is no
marker, as in the source where `analisarMarcadorFalante(undefined)` returns
`null`). -/
def marcadorNoIndice (elementos : List Elemento) (elementoIndex : Int) :
    Option Marcador :=
  match elementos.get? elementoIndex.toNat with
  | none => none
  | some e => analisarMarcadorFalante e.texto

/-- `atualizarSpeakerMode` from `src/js/speechRecognition.js`.  In the safety
valve the source assigns `currentElementIndex` under an `elementoIndex >= 0`
guard that the function's entry guard already ensures. -/
def atualizarSpeakerMode (elementos : List Elemento) (elementoIndex : Int)
    (st : VoiceState) : VoiceState :=
  if elementoIndex < 0 then st
  else
    let marcador := marcadorNoIndice elementos elementoIndex
    if marcador = some .ENTER_EXTERNAL ∧ st.speakerMode = .ANCHOR then
      { st with
        speakerMode := .EXTERNAL
        externalElementCount := 0
        lastLinkMarkerIndex := elementoIndex
        scroll := AutoScroll.softStop st.scroll }
    else if marcador = some .EXIT_EXTERNAL ∧ st.speakerMode = .EXTERNAL then
      { st with
        speakerMode := .ANCHOR
        externalElementCount := 0
        scroll := AutoScroll.softResume st.scroll }
    else if st.speakerMode = .EXTERNAL then
      if st.externalElementCount + 1 > maxExternalElements then
        { st with
          speakerMode := .ANCHOR
          externalElementCount := 0
          lastLinkMarkerIndex := -1
          consecutiveMisses := 0
          wordBuffer := []
          pendingFinalWords := []
          cumulativeFinalWords := []
          currentElementIndex := elementoIndex
          currentState := .SEARCHING
          scroll := AutoScroll.softResume st.scroll }
      else { st with externalElementCount := st.externalElementCount + 1 }
    else st

/-- `inicializarTrackingElemento`. -/
def inicializarTrackingElemento (elemento : Elemento) (st : VoiceState) : VoiceState :=
  let words := palavrasMaioresQue 1 (normalizarTexto elemento.texto)
  { st with
    currentElementWords := words
    currentElementTotalWords := words.length
    currentWordPointer := 0
    cumulativeFinalWords := []
    pendingFinalWords := [] }

/-- `calcularProgressoPorAlinhamento`: position of the last of the (at most
five) most recent spoken words found in the current element's words, as a
fraction of the element's word count. -/
def calcularProgressoPorAlinhamento (textoFalado : JSStr) (st : VoiceState) : ℚ :=
  if st.currentElementTotalWords = 0 then 0
  else
    let palavrasFaladas := palavrasMaioresQue 1 textoFalado
    if palavrasFaladas = [] then 0
    else
      let ultimasPalavras := palavrasFaladas.drop (palavrasFaladas.length - 5)
      let ultimaPosicaoEncontrada : Int :=
        (List.range st.currentElementWords.length).foldl
          (fun acc i =>
            if st.currentElementWords.getD i [] ∈ ultimasPalavras ∧ (i : Int) > acc
            then (i : Int) else acc) (-1)
      if ultimaPosicaoEncontrada < 0 then 0
      else ((ultimaPosicaoEncontrada + 1 : Int) : ℚ) / (st.currentElementTotalWords : ℚ)

/-- `buscarPosicaoInicial`: the SEARCHING-state global search.  Note that it
has no `isFinal` parameter: a match commits the pending final words whether
the triggering result was interim or final, and a no-match leaves them
pending. -/
def buscarPosicaoInicial (elementos : List Elemento) (textoFalado : JSStr)
    (st : VoiceState) : VoiceState :=
  let textoNormalizado := normalizarTexto textoFalado
  match melhorCandidato elementos textoNormalizado CONFIG.searchThreshold
      (List.range elementos.length) with
  | none => st
  | some (melhorIndice, melhorMatch, _melhorSimilaridade) =>
    let st1 :=
      if st.pendingFinalWords ≠ [] then
        { st with
          cumulativeFinalWords := st.cumulativeFinalWords ++ st.pendingFinalWords
          pendingFinalWords := [] }
      else st
    let st2 := { st1 with
      currentState := .LOCKED
      currentElementIndex := (melhorIndice : Int)
      consecutiveMisses := 0 }
    let st3 := atualizarSpeakerMode elementos (melhorIndice : Int) st2
    if st3.speakerMode = .EXTERNAL then st3
    else
      let st4 := inicializarTrackingElemento melhorMatch st3
      let st5 := { st4 with scroll := AutoScroll.reset (AutoScroll.start st4.scroll) }
      { st5 with scroll := scrollParaElemento st5.scroll melhorMatch 0 true }

/-- The intra-element progress cursor as a fraction
(`currentWordPointer / currentElementTotalWords`, 0 for an empty element),
computed at the top of `verificarProximoElemento`. -/
def progressoAtualDe (st : VoiceState) : ℚ :=
  if st.currentElementTotalWords > 0 then
    (st.currentWordPointer : ℚ) / (st.currentElementTotalWords : ℚ)
  else 0

/-- The element indices scanned by the LOCKED local search: from the current
element through the lookahead window, the window expanding from 5 to 20 near
the end of an element or after repeated no-matches there. -/
def janelaLocal (elementos : List Elemento) (st : VoiceState) : List Nat :=
  let lookahead : Nat :=
    if progressoAtualDe st > mkRat 9 10 ∨
        st.parciaisSemMatchNoFim ≥ MAX_PARCIAIS_SEM_MATCH
    then 20 else CONFIG.lookaheadElements
  let startIdx : Nat := (max 0 st.currentElementIndex).toNat
  let endIdx : Nat := min (startIdx + lookahead + 1) elementos.length
  List.range' startIdx (endIdx - startIdx)

/-- The match branch of `verificarProximoElemento`.  In the advance case the
source's marker loop
`for (checkIdx = currentElementIndex; checkIdx <= melhorIndice; checkIdx++)`
runs exactly once, with `checkIdx = melhorIndice`, because
`currentElementIndex` has just been overwritten with `melhorIndice`. -/
def processarMatchLocal (elementos : List Elemento) (textoNormalizado : JSStr)
    (isFinal : Bool) (melhorIndice : Nat) (melhorMatch : Elemento)
    (st : VoiceState) : PassoResultado :=
  let st1 :=
    if isFinal ∧ st.pendingFinalWords ≠ [] then
      { st with
        cumulativeFinalWords := st.cumulativeFinalWords ++ st.pendingFinalWords
        pendingFinalWords := [] }
    else st
  let avancou := (melhorIndice : Int) > st.currentElementIndex
  let st2 := { st1 with scroll := AutoScroll.resume st1.scroll }
  let st3 := { st2 with consecutiveMisses := 0 }
  if avancou then
    let st4 := { st3 with
      parciaisSemMatchNoFim := 0
      currentElementIndex := (melhorIndice : Int) }
    let st5 := atualizarSpeakerMode elementos (melhorIndice : Int) st4
    if st5.speakerMode = .EXTERNAL then ⟨st5, none⟩
    else
      let st6 := inicializarTrackingElemento melhorMatch st5
      let st7 := { st6 with scroll := AutoScroll.reset st6.scroll }
      let st8 :=
        if AutoScroll.shouldScroll st7.scroll then
          { st7 with scroll := scrollParaElemento st7.scroll melhorMatch 0 true }
        else st7
      ⟨st8, none⟩
  else
    if isFinal then
      let palavrasAcumuladas := st3.cumulativeFinalWords.length
      let st4 :=
        if palavrasAcumuladas > st3.currentWordPointer ∧
            st3.currentElementTotalWords > 0 then
          { st3 with
            currentWordPointer := min palavrasAcumuladas st3.currentElementTotalWords }
        else st3
      let progresso : ℚ :=
        (st4.currentWordPointer : ℚ) / (st4.currentElementTotalWords : ℚ)
      if AutoScroll.shouldScroll st4.scroll then
        let scrDeve := AutoScroll.shouldScrollTo st4.scroll progresso
        let st5 := { st4 with scroll := scrDeve.1 }
        if scrDeve.2 then
          ⟨{ st5 with
              scroll := scrollParaElemento st5.scroll melhorMatch progresso false },
            some progresso⟩
        else ⟨st5, none⟩
      else ⟨st4, none⟩
    else
      let alinhado := calcularProgressoPorAlinhamento textoNormalizado st3
      let progressoMinimo : ℚ :=
        (st3.currentWordPointer : ℚ) / (st3.currentElementTotalWords : ℚ)
      let progresso := max alinhado progressoMinimo
      let st4 :=
        if progresso > progressoMinimo then
          { st3 with
            currentWordPointer :=
              (jsRound (progresso * (st3.currentElementTotalWords : ℚ))).toNat }
        else st3
      if AutoScroll.shouldScroll st4.scroll then
        if progresso - st4.scroll.lastProgressoEnviado > mkRat 1 50 then
          let st5 :=
            { st4 with scroll := scrollParaElemento st4.scroll melhorMatch progresso false }
          ⟨{ st5 with
              scroll := { st5.scroll with lastProgressoEnviado := progresso } },
            some progresso⟩
        else ⟨st4, none⟩
      else ⟨st4, none⟩

/-- The no-match branch of `verificarProximoElemento`. -/
def processarSemMatchLocal (progressoAtual : ℚ) (isFinal : Bool)
    (st : VoiceState) : PassoResultado :=
  let stP :=
    if progressoAtual > mkRat 9 10 then
      { st with parciaisSemMatchNoFim := st.parciaisSemMatchNoFim + 1 }
    else st
  if progressoAtual > mkRat 9 10 ∧ stP.parciaisSemMatchNoFim ≥ MAX_PARCIAIS_SEM_MATCH then
    ⟨{ stP with
        currentState := .SEARCHING
        parciaisSemMatchNoFim := 0
        consecutiveMisses := 0
        scroll := AutoScroll.softStop stP.scroll }, none⟩
  else if isFinal then
    let stM := { stP with
      consecutiveMisses := stP.consecutiveMisses + 1
      pendingFinalWords := []
      scroll := AutoScroll.pause stP.scroll }
    if stM.consecutiveMisses ≥ CONFIG.maxConsecutiveMisses then
      ⟨{ stM with
          currentState := .SEARCHING
          consecutiveMisses := 0
          parciaisSemMatchNoFim := 0
          scroll := AutoScroll.softStop stM.scroll }, none⟩
    else ⟨stM, none⟩
  else ⟨stP, none⟩

/-- `verificarProximoElemento`: the LOCKED-state local (lookahead) search and
progress update. -/
def verificarProximoElemento (elementos : List Elemento) (textoFalado : JSStr)
    (isFinal : Bool) (st : VoiceState) : PassoResultado :=
  let textoNormalizado := normalizarTexto textoFalado
  match melhorCandidato elementos textoNormalizado CONFIG.lockedThreshold
      (janelaLocal elementos st) with
  | some (melhorIndice, melhorMatch, _melhorSimilaridade) =>
    processarMatchLocal elementos textoNormalizado isFinal melhorIndice melhorMatch st
  | none => processarSemMatchLocal (progressoAtualDe st) isFinal st

/-- The element indices scanned by the EXTERNAL-mode anchor-return detection:
up to 30 elements starting after the last link marker. -/
def janelaRetorno (elementos : List Elemento) (lastLinkMarkerIndex : Int) : List Nat :=
  let startIdx : Nat := (max 0 (lastLinkMarkerIndex + 1)).toNat
  let endIdx : Nat := min (startIdx + 30) elementos.length
  List.range' startIdx (endIdx - startIdx)

/-- `tentarDetectarRetornoAncora`: during EXTERNAL mode, scan the 30 elements
after the last link marker; an exit-marker element re-enters SEARCHING at the
next readable element, a non-marker match of similarity ≥ 0.40 re-acquires
LOCKED there, anything else changes nothing and reports `false`. -/
def tentarDetectarRetornoAncora (elementos : List Elemento) (textoFalado : JSStr)
    (st : VoiceState) : VoiceState × Bool :=
  let textoNormalizado := normalizarTexto textoFalado
  let window := janelaRetorno elementos st.lastLinkMarkerIndex
  match window.find? (fun i =>
      match elementos.get? i with
      | some e => isLinkExitMarker e.texto
      | none => false) with
  | some i =>
    let proximoIndex :=
      (List.range' (i + 1) (elementos.length - (i + 1))).find? (fun j =>
        match elementos.get? j with
        | some e =>
          jsTrim e.texto ≠ [] ∧ ¬ isTagTecnica e.texto = true ∧
            ¬ isLinkEntryMarker (jsTrim e.texto) = true ∧
            ¬ isLinkExitMarker (jsTrim e.texto) = true
        | none => false)
    ({ st with
        speakerMode := .ANCHOR
        externalElementCount := 0
        lastLinkMarkerIndex := -1
        consecutiveMisses := 0
        wordBuffer := []
        pendingFinalWords := []
        cumulativeFinalWords := []
        currentElementIndex :=
          match proximoIndex with
          | some j => (j : Int)
          | none => (i : Int)
        currentState := .SEARCHING
        scroll := AutoScroll.softResume st.scroll }, true)
  | none =>
    match melhorCandidato elementos textoNormalizado (mkRat 7 20) window with
    | some (melhorIndice, melhorMatch, melhorSimilaridade) =>
      if melhorSimilaridade ≥ mkRat 2 5 then
        if isLinkEntryMarker (jsTrim melhorMatch.texto) then (st, false)
        else
          let words := palavrasMaioresQue 1 (normalizarTexto (jsTrim melhorMatch.texto))
          ({ st with
              speakerMode := .ANCHOR
              externalElementCount := 0
              lastLinkMarkerIndex := -1
              currentElementIndex := (melhorIndice : Int)
              currentState := .LOCKED
              consecutiveMisses := 0
              currentElementWords := words
              currentElementTotalWords := words.length
              currentWordPointer := 0
              cumulativeFinalWords := []
              pendingFinalWords := []
              wordBuffer := []
              scroll := scrollParaElemento
                (AutoScroll.reset (AutoScroll.start st.scroll)) melhorMatch 0 true }, true)
      else (st, false)
    | none => (st, false)

/-- `executarMatching`: the per-result dispatcher.  Empty text returns
immediately; in EXTERNAL mode only the anchor-return detection runs, and a
failed detection discards the buffers; otherwise the state machine
dispatches on `currentState`. -/
def executarMatching (elementos : List Elemento) (textoFalado : JSStr)
    (isFinal : Bool) (st : VoiceState) : PassoResultado :=
  if textoFalado = [] then ⟨st, none⟩
  else if st.speakerMode = .EXTERNAL then
    match tentarDetectarRetornoAncora elementos textoFalado st with
    | (st2, false) => ⟨{ st2 with wordBuffer := [], pendingFinalWords := [] }, none⟩
    | (st2, true) =>
      if st2.currentState = .SEARCHING then
        ⟨buscarPosicaoInicial elementos textoFalado st2, none⟩
      else verificarProximoElemento elementos textoFalado isFinal st2
  else if st.currentState = .SEARCHING then
    ⟨buscarPosicaoInicial elementos textoFalado st, none⟩
  else verificarProximoElemento elementos textoFalado isFinal st

/-- The final-result branch of `recognition.onresult`: the transcript's words
go to the matching buffer (truncated to the last `maxBufferWords`), and the
words longer than one character are appended to `pendingFinalWords`. -/
def processarResultadoFinal (transcript : JSStr) (st : VoiceState) : VoiceState :=
  let words := (splitWs transcript).filter (fun w => w ≠ [])
  let st1 := { st with
    wordBuffer := st.wordBuffer ++ words
    pendingFinalWords := st.pendingFinalWords ++ words.filter (fun w => w.length > 1) }
  if st1.wordBuffer.length > CONFIG.maxBufferWords then
    { st1 with
      wordBuffer := st1.wordBuffer.drop (st1.wordBuffer.length - CONFIG.maxBufferWords) }
  else st1

/-! ## Properties of the candidate search -/

lemma melhorCandidatoAux_cases (elementos : List Elemento) (texto : JSStr) (t : ℚ) :
    ∀ (idxs : List Nat) (acc : Option (Nat × Elemento × ℚ)),
      melhorCandidatoAux elementos texto t idxs acc = acc ∨
      ∃ i ∈ idxs, ∃ e, elementos.get? i = some e ∧ isTagTecnica e.texto = false ∧
        normalizarTexto e.texto ≠ [] ∧
        melhorCandidatoAux elementos texto t idxs acc =
          some (i, e, calcularSimilaridade texto (normalizarTexto e.texto)) ∧
        t ≤ calcularSimilaridade texto (normalizarTexto e.texto) := by
  intro idxs
  induction idxs with
  | nil => intro acc; exact Or.inl rfl
  | cons i idxs ih =>
    intro acc
    simp only [melhorCandidatoAux]
    rcases hget : elementos.get? i with _ | e
    · simp only [hget]
      rcases ih acc with h | ⟨j, hj, e, h1, h2, h3, h4, h5⟩
      · exact Or.inl h
      · exact Or.inr ⟨j, List.mem_cons_of_mem _ hj, e, h1, h2, h3, h4, h5⟩
    · simp only [hget]
      by_cases htag : isTagTecnica e.texto
      · rw [if_pos htag]
        rcases ih acc with h | ⟨j, hj, e2, h1, h2, h3, h4, h5⟩
        · exact Or.inl h
        · exact Or.inr ⟨j, List.mem_cons_of_mem _ hj, e2, h1, h2, h3, h4, h5⟩
      · rw [if_neg htag]
        by_cases hvazio : normalizarTexto e.texto = []
        · rw [if_pos hvazio]
          rcases ih acc with h | ⟨j, hj, e2, h1, h2, h3, h4, h5⟩
          · exact Or.inl h
          · exact Or.inr ⟨j, List.mem_cons_of_mem _ hj, e2, h1, h2, h3, h4, h5⟩
        · rw [if_neg hvazio]
          by_cases hcond : calcularSimilaridade texto (normalizarTexto e.texto) >
              (match acc with | none => (0 : ℚ) | some q => q.2.2) ∧
              calcularSimilaridade texto (normalizarTexto e.texto) ≥ t
          · rw [if_pos hcond]
            rcases ih (some (i, e, calcularSimilaridade texto (normalizarTexto e.texto)))
              with h | ⟨j, hj, e2, h1, h2, h3, h4, h5⟩
            · exact Or.inr ⟨i, List.mem_cons_self .., e, hget,
                Bool.eq_false_iff.mpr htag, hvazio, h, hcond.2⟩
            · exact Or.inr ⟨j, List.mem_cons_of_mem _ hj, e2, h1, h2, h3, h4, h5⟩
          · rw [if_neg hcond]
            rcases ih acc with h | ⟨j, hj, e2, h1, h2, h3, h4, h5⟩
            · exact Or.inl h
            · exact Or.inr ⟨j, List.mem_cons_of_mem _ hj, e2, h1, h2, h3, h4, h5⟩

/-- The specification of a successful candidate search: the returned index is
one of the scanned indices, it carries the element at that index (not a tag,
with non-empty normalized text), and the returned similarity is that
element's, at or above the threshold. -/
lemma melhorCandidato_spec {elementos : List Elemento} {texto : JSStr} {t : ℚ}
    {idxs : List Nat} {i : Nat} {e : Elemento} {s : ℚ}
    (h : melhorCandidato elementos texto t idxs = some (i, e, s)) :
    i ∈ idxs ∧ elementos.get? i = some e ∧ isTagTecnica e.texto = false ∧
      normalizarTexto e.texto ≠ [] ∧
      s = calcularSimilaridade texto (normalizarTexto e.texto) ∧ t ≤ s := by
  rcases melhorCandidatoAux_cases elementos texto t idxs none with h2 | ⟨j, hj, e2, h1, h2, h3, h4, h5⟩
  · rw [melhorCandidato] at h
    rw [h2] at h
    cases h
  · rw [melhorCandidato] at h
    rw [h4] at h
    simp only [Option.some.injEq, Prod.mk.injEq] at h
    obtain ⟨rfl, rfl, rfl⟩ := h
    exact ⟨hj, h1, h2, h3, rfl, h5⟩

lemma melhorCandidatoAux_of_zero {texto : JSStr} {t : ℚ} (ht : 0 < t)
    (hz : ∀ e : JSStr, calcularSimilaridade texto e = 0)
    (elementos : List Elemento) :
    ∀ (idxs : List Nat) (acc : Option (Nat × Elemento × ℚ)),
      melhorCandidatoAux elementos texto t idxs acc = acc := by
  intro idxs
  induction idxs with
  | nil => intro acc; rfl
  | cons i idxs ih =>
    intro acc
    simp only [melhorCandidatoAux]
    rcases hget : elementos.get? i with _ | e
    · simp only [hget]; exact ih acc
    · simp only [hget]
      by_cases htag : isTagTecnica e.texto
      · rw [if_pos htag]; exact ih acc
      · rw [if_neg htag]
        by_cases hvazio : normalizarTexto e.texto = []
        · rw [if_pos hvazio]; exact ih acc
        · rw [if_neg hvazio]
          rw [if_neg]
          · exact ih acc
          · rw [hz]
            intro hcon
            exact absurd hcon.2 (not_le.mpr ht)

/-! ## Short-utterance blindness (C10) -/

lemma calcularSimilaridade_zero_of_short {texto : JSStr}
    (h : palavrasMaioresQue 2 texto = []) (e : JSStr) :
    calcularSimilaridade texto e = 0 := by
  unfold calcularSimilaridade
  rw [if_pos (by rw [h]; rfl)]

/-- C10.  A spoken text whose normalized words all have length ≤ 2 scores 0
against every element, so it can never produce a match: the candidate search
returns `none` for every positive threshold over every index window — in
particular for the SEARCHING threshold 0.20 and the LOCKED threshold 0.15,
both positive — and `buscarPosicaoInicial` leaves the state untouched.  This
holds even though `minWordsForMatch = 1` and short elements such as `"Oi"`
are valid (non-tag) matchable elements. -/
theorem claim_C10_short_utterance_blindness (texto : JSStr)
    (h : ∀ w ∈ splitWs (normalizarTexto texto), w.length ≤ 2) :
    (∀ e : JSStr, calcularSimilaridade (normalizarTexto texto) e = 0) ∧
    (∀ (elementos : List Elemento) (idxs : List Nat) (t : ℚ), 0 < t →
      melhorCandidato elementos (normalizarTexto texto) t idxs = none) ∧
    (∀ (elementos : List Elemento) (st : VoiceState),
      buscarPosicaoInicial elementos texto st = st) ∧
    0 < CONFIG.searchThreshold ∧ 0 < CONFIG.lockedThreshold ∧
    CONFIG.minWordsForMatch = 1 ∧ isTagTecnica (strCodes "Oi") = false := by
  have hpal : palavrasMaioresQue 2 (normalizarTexto texto) = [] := by
    unfold palavrasMaioresQue
    rw [List.filter_eq_nil_iff]
    intro w hw
    simp only [decide_eq_true_eq, not_lt]
    exact h w hw
  have hz := calcularSimilaridade_zero_of_short hpal
  have hnone : ∀ (elementos : List Elemento) (idxs : List Nat) (t : ℚ), 0 < t →
      melhorCandidato elementos (normalizarTexto texto) t idxs = none := by
    intro elementos idxs t ht
    unfold melhorCandidato
    exact melhorCandidatoAux_of_zero ht hz elementos idxs none
  have hthr1 : (0 : ℚ) < CONFIG.searchThreshold := by
    show (0 : ℚ) < mkRat 1 5
    rw [mkRat_as_div]
    norm_num
  have hthr2 : (0 : ℚ) < CONFIG.lockedThreshold := by
    show (0 : ℚ) < mkRat 3 20
    rw [mkRat_as_div]
    norm_num
  refine ⟨hz, hnone, ?_, hthr1, hthr2, rfl, by decide⟩
  intro elementos st
  simp only [buscarPosicaoInicial, hnone elementos (List.range elementos.length)
    CONFIG.searchThreshold hthr1]

/-- Witness for C10 at a concrete short utterance and a concrete script. -/
theorem claim_C10_short_utterance_blindness_witness :
    calcularSimilaridade (normalizarTexto (strCodes "e ai oi")) (strCodes "oi eu") = 0 ∧
    melhorCandidato [⟨strCodes "Oi", 0, 10⟩, ⟨strCodes "E ai", 10, 10⟩]
      (normalizarTexto (strCodes "e ai oi")) CONFIG.searchThreshold [0, 1] = none := by
  have h := claim_C10_short_utterance_blindness (strCodes "e ai oi") (by decide)
  refine ⟨h.1 (strCodes "oi eu"), h.2.1 _ [0, 1] CONFIG.searchThreshold h.2.2.2.1⟩

/-! ## The EXTERNAL safety valve (C5) -/

lemma atualizar_none_anchor {elementos : List Elemento} {i : Int} {st : VoiceState}
    (hmarc : marcadorNoIndice elementos i = none)
    (hm : st.speakerMode = .ANCHOR) :
    atualizarSpeakerMode elementos i st = st := by
  unfold atualizarSpeakerMode
  by_cases hi : i < 0
  · rw [if_pos hi]
  · rw [if_neg hi]
    simp only [hmarc]
    rw [if_neg (by simp), if_neg (by simp), if_neg (by rw [hm]; simp)]

lemma fold_atualizar_anchor (elementos : List Elemento) :
    ∀ (idxs : List Int) (st : VoiceState), st.speakerMode = .ANCHOR →
      (∀ i ∈ idxs, marcadorNoIndice elementos i = none) →
      idxs.foldl (fun s i => atualizarSpeakerMode elementos i s) st = st := by
  intro idxs
  induction idxs with
  | nil => intro st _ _; rfl
  | cons i idxs ih =>
    intro st hm hmark
    rw [List.foldl_cons, atualizar_none_anchor (hmark i (by simp)) hm]
    exact ih st hm (fun j hj => hmark j (by simp [hj]))

lemma atualizar_none_external {elementos : List Elemento} {i : Int} {st : VoiceState}
    (hmarc : marcadorNoIndice elementos i = none) (hi : ¬ i < 0)
    (hm : st.speakerMode = .EXTERNAL) :
    atualizarSpeakerMode elementos i st =
      (if st.externalElementCount + 1 > maxExternalElements then
        { st with
          speakerMode := .ANCHOR
          externalElementCount := 0
          lastLinkMarkerIndex := -1
          consecutiveMisses := 0
          wordBuffer := []
          pendingFinalWords := []
          cumulativeFinalWords := []
          currentElementIndex := i
          currentState := .SEARCHING
          scroll := AutoScroll.softResume st.scroll }
      else { st with externalElementCount := st.externalElementCount + 1 }) := by
  unfold atualizarSpeakerMode
  rw [if_neg hi]
  simp only [hmarc]
  rw [if_neg (by simp), if_neg (by simp), if_pos hm]

/-- C5.  Safety valve: starting in `speakerMode = EXTERNAL` with the element
counter within its bound, traversing any sequence of elements (valid indices,
none carrying an entry or exit marker) that pushes the counter past
`maxExternalElements = 50` forces the mode back to ANCHOR and the machine
state to SEARCHING, so the system is never locked out of matching
indefinitely after a missed or malformed exit marker. -/
theorem claim_C5_external_safety_valve (elementos : List Elemento) :
    ∀ (idxs : List Int) (st : VoiceState),
      st.speakerMode = .EXTERNAL →
      st.externalElementCount ≤ maxExternalElements →
      maxExternalElements < st.externalElementCount + idxs.length →
      (∀ i ∈ idxs, 0 ≤ i ∧ marcadorNoIndice elementos i = none) →
      ((idxs.foldl (fun s i => atualizarSpeakerMode elementos i s) st).speakerMode
          = .ANCHOR ∧
        (idxs.foldl (fun s i => atualizarSpeakerMode elementos i s) st).currentState
          = .SEARCHING) := by
  intro idxs
  induction idxs with
  | nil =>
    intro st _hmode hle hgt _hmark
    simp only [List.length_nil, Nat.add_zero] at hgt
    omega
  | cons i idxs ih =>
    intro st hmode hle hgt hmark
    obtain ⟨hi0, hmarc⟩ := hmark i (by simp)
    have hmark2 : ∀ j ∈ idxs, 0 ≤ j ∧ marcadorNoIndice elementos j = none :=
      fun j hj => hmark j (by simp [hj])
    rw [List.foldl_cons, atualizar_none_external hmarc (not_lt.mpr hi0) hmode]
    by_cases hv : st.externalElementCount + 1 > maxExternalElements
    · rw [if_pos hv]
      rw [fold_atualizar_anchor elementos idxs _ rfl (fun j hj => (hmark2 j hj).2)]
      exact ⟨rfl, rfl⟩
    · rw [if_neg hv]
      refine ih _ hmode ?_ ?_ hmark2
      · show st.externalElementCount + 1 ≤ maxExternalElements
        omega
      · show maxExternalElements < st.externalElementCount + 1 + idxs.length
        simp only [List.length_cons] at hgt
        omega

/-- Witness for C5: a counter at 0 and 51 traversals of a plain (marker-free)
element force the mode back to ANCHOR and the state to SEARCHING. -/
theorem claim_C5_external_safety_valve_witness :
    ((List.replicate 51 (0 : Int)).foldl
        (fun s i => atualizarSpeakerMode [⟨strCodes "bom dia", 0, 10⟩] i s)
        ⟨.LOCKED, .EXTERNAL, 0, 0, [], 0, 0, 0, [], [], [], 0, 0,
          ⟨true, true, 0, 0, 0⟩⟩).speakerMode = .ANCHOR ∧
    ((List.replicate 51 (0 : Int)).foldl
        (fun s i => atualizarSpeakerMode [⟨strCodes "bom dia", 0, 10⟩] i s)
        ⟨.LOCKED, .EXTERNAL, 0, 0, [], 0, 0, 0, [], [], [], 0, 0,
          ⟨true, true, 0, 0, 0⟩⟩).currentState = .SEARCHING := by
  exact claim_C5_external_safety_valve [⟨strCodes "bom dia", 0, 10⟩]
    (List.replicate 51 (0 : Int))
    ⟨.LOCKED, .EXTERNAL, 0, 0, [], 0, 0, 0, [], [], [], 0, 0, ⟨true, true, 0, 0, 0⟩⟩
    rfl (by decide) (by decide) (by decide)

/-! ## EXTERNAL speaker-mode gating (C4) -/

/-- A transcript that the EXTERNAL gate must discard: within the anchor-return
window there is no exit-marker element and no matchable element whose
similarity with the transcript reaches 0.40. -/
def transcricaoDescartavel (elementos : List Elemento) (lastLinkMarkerIndex : Int)
    (texto : JSStr) : Bool :=
  (janelaRetorno elementos lastLinkMarkerIndex).all (fun i =>
    match elementos.get? i with
    | none => true
    | some e =>
      decide (isLinkExitMarker e.texto = false ∧
        (isTagTecnica e.texto = false → normalizarTexto e.texto ≠ [] →
          calcularSimilaridade (normalizarTexto texto) (normalizarTexto e.texto)
            < mkRat 2 5)))

lemma descartavel_spec {elementos : List Elemento} {lastLink : Int} {texto : JSStr}
    (h : transcricaoDescartavel elementos lastLink texto = true) :
    ∀ i ∈ janelaRetorno elementos lastLink, ∀ e, elementos.get? i = some e →
      isLinkExitMarker e.texto = false ∧
      (isTagTecnica e.texto = false → normalizarTexto e.texto ≠ [] →
        calcularSimilaridade (normalizarTexto texto) (normalizarTexto e.texto)
          < mkRat 2 5) := by
  intro i hi e hget
  have h2 := List.all_eq_true.mp h i hi
  rw [hget] at h2
  exact of_decide_eq_true h2

lemma tentar_no_return {elementos : List Elemento} {texto : JSStr} {st : VoiceState}
    (h : transcricaoDescartavel elementos st.lastLinkMarkerIndex texto = true) :
    tentarDetectarRetornoAncora elementos texto st = (st, false) := by
  have hspec := descartavel_spec h
  simp only [tentarDetectarRetornoAncora]
  have hfind : (janelaRetorno elementos st.lastLinkMarkerIndex).find? (fun i =>
      match elementos.get? i with
      | some e => isLinkExitMarker e.texto
      | none => false) = none := by
    rw [List.find?_eq_none]
    intro i hi
    rcases hget : elementos.get? i with _ | e
    · simp
    · simp only
      rw [(hspec i hi e hget).1]
      simp
  rw [hfind]
  rcases hcand : melhorCandidato elementos (normalizarTexto texto) (mkRat 7 20)
      (janelaRetorno elementos st.lastLinkMarkerIndex) with _ | c
  · rfl
  · obtain ⟨i, e, s⟩ := c
    obtain ⟨hi, hget, htag, hne, hs, _hts⟩ := melhorCandidato_spec hcand
    have hlt : s < mkRat 2 5 := by
      rw [hs]
      exact (hspec i hi e hget).2 htag hne
    show (if s ≥ mkRat 2 5 then _ else (st, false)) = (st, false)
    rw [if_neg (not_le.mpr hlt)]

lemma executar_external_discards {elementos : List Elemento} {texto : JSStr}
    {isFinal : Bool} {st : VoiceState}
    (hmode : st.speakerMode = .EXTERNAL)
    (h : transcricaoDescartavel elementos st.lastLinkMarkerIndex texto = true) :
    (executarMatching elementos texto isFinal st).st.currentState = st.currentState ∧
    (executarMatching elementos texto isFinal st).st.currentElementIndex
      = st.currentElementIndex ∧
    (executarMatching elementos texto isFinal st).st.currentWordPointer
      = st.currentWordPointer ∧
    (executarMatching elementos texto isFinal st).st.speakerMode = st.speakerMode ∧
    (executarMatching elementos texto isFinal st).st.lastLinkMarkerIndex
      = st.lastLinkMarkerIndex := by
  by_cases hv : texto = []
  · unfold executarMatching
    rw [if_pos hv]
    exact ⟨rfl, rfl, rfl, rfl, rfl⟩
  · unfold executarMatching
    rw [if_neg hv, if_pos hmode, tentar_no_return h]
    exact ⟨rfl, rfl, rfl, rfl, rfl⟩

lemma executar_external_fold (elementos : List Elemento) :
    ∀ (entradas : List (JSStr × Bool)) (st : VoiceState),
      st.speakerMode = .EXTERNAL →
      (∀ p ∈ entradas,
        transcricaoDescartavel elementos st.lastLinkMarkerIndex p.1 = true) →
      ((entradas.foldl (fun s p => (executarMatching elementos p.1 p.2 s).st)
          st).currentState = st.currentState ∧
        (entradas.foldl (fun s p => (executarMatching elementos p.1 p.2 s).st)
          st).currentElementIndex = st.currentElementIndex ∧
        (entradas.foldl (fun s p => (executarMatching elementos p.1 p.2 s).st)
          st).currentWordPointer = st.currentWordPointer ∧
        (entradas.foldl (fun s p => (executarMatching elementos p.1 p.2 s).st)
          st).speakerMode = .EXTERNAL ∧
        (entradas.foldl (fun s p => (executarMatching elementos p.1 p.2 s).st)
          st).lastLinkMarkerIndex = st.lastLinkMarkerIndex) := by
  intro entradas
  induction entradas with
  | nil => intro st hmode _; exact ⟨rfl, rfl, rfl, hmode, rfl⟩
  | cons p ps ih =>
    intro st hmode hall
    obtain ⟨e1, e2, e3, e4, e5⟩ :=
      @executar_external_discards elementos p.1 p.2 st hmode (hall p (by simp))
    rw [List.foldl_cons]
    obtain ⟨f1, f2, f3, f4, f5⟩ := ih ((executarMatching elementos p.1 p.2 st).st)
      (by rw [e4, hmode])
      (fun q hq => by rw [e5]; exact hall q (by simp [hq]))
    refine ⟨f1.trans e1, f2.trans e2, f3.trans e3, f4, f5.trans e5⟩

/-- C4.  EXTERNAL gating: while `speakerMode = EXTERNAL`, any final (or
interim) transcript for which the anchor-return window past the last link
marker contains neither an exit-marker element nor an element matching the
transcript with similarity ≥ 0.40 is discarded: `currentState`,
`currentElementIndex`, `currentWordPointer`, `speakerMode` and the link-marker
index are unchanged, both after one such transcript and after any sequence of
them. -/
theorem claim_C4_external_gating :
    (∀ (elementos : List Elemento) (texto : JSStr) (isFinal : Bool) (st : VoiceState),
      st.speakerMode = .EXTERNAL →
      transcricaoDescartavel elementos st.lastLinkMarkerIndex texto = true →
      ((executarMatching elementos texto isFinal st).st.currentState = st.currentState ∧
        (executarMatching elementos texto isFinal st).st.currentElementIndex
          = st.currentElementIndex ∧
        (executarMatching elementos texto isFinal st).st.currentWordPointer
          = st.currentWordPointer ∧
        (executarMatching elementos texto isFinal st).st.speakerMode = .EXTERNAL)) ∧
    (∀ (elementos : List Elemento) (entradas : List (JSStr × Bool)) (st : VoiceState),
      st.speakerMode = .EXTERNAL →
      (∀ p ∈ entradas,
        transcricaoDescartavel elementos st.lastLinkMarkerIndex p.1 = true) →
      ((entradas.foldl (fun s p => (executarMatching elementos p.1 p.2 s).st)
          st).currentState = st.currentState ∧
        (entradas.foldl (fun s p => (executarMatching elementos p.1 p.2 s).st)
          st).currentElementIndex = st.currentElementIndex ∧
        (entradas.foldl (fun s p => (executarMatching elementos p.1 p.2 s).st)
          st).currentWordPointer = st.currentWordPointer ∧
        (entradas.foldl (fun s p => (executarMatching elementos p.1 p.2 s).st)
          st).speakerMode = .EXTERNAL)) := by
  constructor
  · intro elementos texto isFinal st hmode h
    obtain ⟨e1, e2, e3, e4, _⟩ := @executar_external_discards elementos texto isFinal st hmode h
    exact ⟨e1, e2, e3, e4.trans hmode⟩
  · intro elementos entradas st hmode hall
    obtain ⟨f1, f2, f3, f4, _⟩ := executar_external_fold elementos entradas st hmode hall
    exact ⟨f1, f2, f3, f4⟩

/-- Witness for C4: in EXTERNAL mode over a concrete script whose window has
no exit marker and no strong match for the spoken text, two successive
transcripts leave position and mode unchanged. -/
theorem claim_C4_external_gating_witness :
    ((([(strCodes "conversa improvisada do reporter", true),
        (strCodes "mais conversa aleatoria agora", false)] :
          List (JSStr × Bool)).foldl
        (fun s p => (executarMatching
          [⟨strCodes "agora vamos ao link (ABRE LINK)", 0, 10⟩,
           ⟨strCodes "reportagem do campo", 10, 10⟩,
           ⟨strCodes "voltamos ao estudio apos o link", 20, 10⟩] p.1 p.2 s).st)
        ⟨.LOCKED, .EXTERNAL, 0, 3, [], 7, 0, 0, [], [], [], 1, 0,
          ⟨true, true, 0, 0, 0⟩⟩).currentElementIndex = 0 ∧
      (([(strCodes "conversa improvisada do reporter", true),
        (strCodes "mais conversa aleatoria agora", false)] :
          List (JSStr × Bool)).foldl
        (fun s p => (executarMatching
          [⟨strCodes "agora vamos ao link (ABRE LINK)", 0, 10⟩,
           ⟨strCodes "reportagem do campo", 10, 10⟩,
           ⟨strCodes "voltamos ao estudio apos o link", 20, 10⟩] p.1 p.2 s).st)
        ⟨.LOCKED, .EXTERNAL, 0, 3, [], 7, 0, 0, [], [], [], 1, 0,
          ⟨true, true, 0, 0, 0⟩⟩).speakerMode = .EXTERNAL) := by
  have h := claim_C4_external_gating.2
    [⟨strCodes "agora vamos ao link (ABRE LINK)", 0, 10⟩,
     ⟨strCodes "reportagem do campo", 10, 10⟩,
     ⟨strCodes "voltamos ao estudio apos o link", 20, 10⟩]
    [(strCodes "conversa improvisada do reporter", true),
     (strCodes "mais conversa aleatoria agora", false)]
    ⟨.LOCKED, .EXTERNAL, 0, 3, [], 7, 0, 0, [], [], [], 1, 0, ⟨true, true, 0, 0, 0⟩⟩
    rfl (by with_unfolding_all decide)
  exact ⟨h.2.1, h.2.2.2⟩

/-! ## The word-commit protocol (C3) -/

lemma atualizar_pending (elementos : List Elemento) (i : Int) (st : VoiceState) :
    (atualizarSpeakerMode elementos i st).pendingFinalWords = st.pendingFinalWords ∨
    (atualizarSpeakerMode elementos i st).pendingFinalWords = [] := by
  simp only [atualizarSpeakerMode]
  split_ifs <;> first | exact Or.inl rfl | exact Or.inr rfl

lemma atualizar_cumulative (elementos : List Elemento) (i : Int) (st : VoiceState) :
    (atualizarSpeakerMode elementos i st).cumulativeFinalWords
        = st.cumulativeFinalWords ∨
    (atualizarSpeakerMode elementos i st).cumulativeFinalWords = [] := by
  simp only [atualizarSpeakerMode]
  split_ifs <;> first | exact Or.inl rfl | exact Or.inr rfl

lemma atualizar_pending_empty (elementos : List Elemento) (i : Int) (st : VoiceState)
    (h : st.pendingFinalWords = []) :
    (atualizarSpeakerMode elementos i st).pendingFinalWords = [] := by
  rcases atualizar_pending elementos i st with hA | hA
  · rw [hA, h]
  · exact hA

lemma matchLocal_pending (elementos : List Elemento) (texto : JSStr) (isFinal : Bool)
    (i : Nat) (e : Elemento) (st : VoiceState)
    (h : isFinal = true ∨ st.pendingFinalWords = []) :
    (processarMatchLocal elementos texto isFinal i e st).st.pendingFinalWords = [] := by
  simp only [processarMatchLocal]
  by_cases hc : (isFinal = true) ∧ st.pendingFinalWords ≠ []
  · rw [if_pos hc]
    split_ifs
    all_goals
      first
      | exact atualizar_pending_empty _ _ _ (by simp)
      | simp [inicializarTrackingElemento]
  · rw [if_neg hc]
    have hp : st.pendingFinalWords = [] := by
      rcases h with h | h
      · by_contra hne
        exact hc ⟨h, hne⟩
      · exact h
    split_ifs
    all_goals
      first
      | exact atualizar_pending_empty _ _ _ (by simp [hp])
      | simp [inicializarTrackingElemento, hp]

lemma matchLocal_same_final (elementos : List Elemento) (texto : JSStr)
    (i : Nat) (e : Elemento) (st : VoiceState)
    (hnav : ¬ ((i : Int) > st.currentElementIndex)) :
    (processarMatchLocal elementos texto true i e st).st.cumulativeFinalWords
      = st.cumulativeFinalWords ++ st.pendingFinalWords := by
  simp only [processarMatchLocal]
  rw [if_neg hnav]
  by_cases hc : True ∧ st.pendingFinalWords ≠ []
  · rw [if_pos hc]
    split_ifs <;> simp
  · rw [if_neg hc]
    have hp : st.pendingFinalWords = [] := by
      by_contra hne
      exact hc ⟨trivial, hne⟩
    split_ifs <;> simp [hp]

lemma semMatch_final_discard (progressoAtual : ℚ) (st : VoiceState)
    (hne : ¬ (progressoAtual > mkRat 9 10 ∧
      st.parciaisSemMatchNoFim + 1 ≥ MAX_PARCIAIS_SEM_MATCH)) :
    (processarSemMatchLocal progressoAtual true st).st.pendingFinalWords = [] ∧
    (processarSemMatchLocal progressoAtual true st).st.cumulativeFinalWords
      = st.cumulativeFinalWords := by
  unfold processarSemMatchLocal
  by_cases hprog : progressoAtual > mkRat 9 10
  · rw [if_pos hprog]
    rw [if_neg (by
      intro hcon
      exact hne ⟨hprog, by simpa using hcon.2⟩)]
    rw [if_pos (rfl : true = true)]
    constructor <;> (dsimp only; split_ifs <;> simp)
  · rw [if_neg hprog]
    rw [if_neg (fun hcon => hprog hcon.1)]
    rw [if_pos (rfl : true = true)]
    constructor <;> (dsimp only; split_ifs <;> simp)

lemma buscar_match_pending (elementos : List Elemento) (texto : JSStr)
    (st : VoiceState) (c : Nat × Elemento × ℚ)
    (hm : melhorCandidato elementos (normalizarTexto texto) CONFIG.searchThreshold
      (List.range elementos.length) = some c) :
    (buscarPosicaoInicial elementos texto st).pendingFinalWords = [] := by
  obtain ⟨i, e, s⟩ := c
  simp only [buscarPosicaoInicial, hm]
  by_cases hc : st.pendingFinalWords = []
  · rw [if_neg (show ¬ (st.pendingFinalWords ≠ []) from fun h => h hc)]
    split_ifs
    all_goals
      first
      | exact atualizar_pending_empty _ _ _ (by simp [hc])
      | simp [inicializarTrackingElemento, hc]
  · rw [if_pos (show st.pendingFinalWords ≠ [] from hc)]
    split_ifs
    all_goals
      first
      | exact atualizar_pending_empty _ _ _ (by simp)
      | simp [inicializarTrackingElemento]

lemma buscar_no_match (elementos : List Elemento) (texto : JSStr) (st : VoiceState)
    (hm : melhorCandidato elementos (normalizarTexto texto) CONFIG.searchThreshold
      (List.range elementos.length) = none) :
    buscarPosicaoInicial elementos texto st = st := by
  simp only [buscarPosicaoInicial, hm]

/-- C3, counterexample to the claim as stated.  In SEARCHING, a final result
that produces no match does NOT discard the pending final words: the
discard at `speechRecognition.js:1307-1312` lives only in the LOCKED branch
(`verificarProximoElemento`), while `buscarPosicaoInicial` leaves a failed
final result's words pending. -/
theorem claim_C3_word_commit_counterexample :
    (executarMatching [⟨strCodes "bom dia brasil", 0, 10⟩]
        (strCodes "improviso xyz qqq") true
        ⟨.SEARCHING, .ANCHOR, -1, 0, [], 0, 0, 0, [],
          [strCodes "teste"], [strCodes "teste"], 0, -1,
          ⟨false, false, 0, 0, 0⟩⟩).st.pendingFinalWords
      = [strCodes "teste"] := by
  with_unfolding_all decide

/-- C3, amended.  Words of a final transcript (filtered to length > 1) are
appended to `pendingFinalWords`.  In LOCKED: a final result with a match
commits — the same-element case moves `pendingFinalWords` into
`cumulativeFinalWords` — and every LOCKED match empties the pending buffer;
a final result with no match (when the near-end escape does not fire)
discards `pendingFinalWords` without ever appending them to
`cumulativeFinalWords`.  In SEARCHING, by contrast, any match — interim or
final — consumes the pending words, and a no-match result leaves the whole
state (pending words included) unchanged. -/
theorem claim_C3_word_commit_amended :
    (∀ (transcript : JSStr) (st : VoiceState),
      (processarResultadoFinal transcript st).pendingFinalWords
        = st.pendingFinalWords ++
          ((splitWs transcript).filter (fun w => w ≠ [])).filter
            (fun w => w.length > 1)) ∧
    (∀ (elementos : List Elemento) (texto : JSStr) (st : VoiceState)
        (i : Nat) (e : Elemento) (s : ℚ),
      melhorCandidato elementos (normalizarTexto texto) CONFIG.lockedThreshold
          (janelaLocal elementos st) = some (i, e, s) →
      ¬ ((i : Int) > st.currentElementIndex) →
      ((verificarProximoElemento elementos texto true st).st.pendingFinalWords = [] ∧
        (verificarProximoElemento elementos texto true st).st.cumulativeFinalWords
          = st.cumulativeFinalWords ++ st.pendingFinalWords)) ∧
    (∀ (elementos : List Elemento) (texto : JSStr) (st : VoiceState)
        (i : Nat) (e : Elemento) (s : ℚ),
      melhorCandidato elementos (normalizarTexto texto) CONFIG.lockedThreshold
          (janelaLocal elementos st) = some (i, e, s) →
      (verificarProximoElemento elementos texto true st).st.pendingFinalWords = []) ∧
    (∀ (elementos : List Elemento) (texto : JSStr) (st : VoiceState),
      melhorCandidato elementos (normalizarTexto texto) CONFIG.lockedThreshold
          (janelaLocal elementos st) = none →
      ¬ (progressoAtualDe st > mkRat 9 10 ∧
          st.parciaisSemMatchNoFim + 1 ≥ MAX_PARCIAIS_SEM_MATCH) →
      ((verificarProximoElemento elementos texto true st).st.pendingFinalWords = [] ∧
        (verificarProximoElemento elementos texto true st).st.cumulativeFinalWords
          = st.cumulativeFinalWords)) ∧
    (∀ (elementos : List Elemento) (texto : JSStr) (st : VoiceState)
        (c : Nat × Elemento × ℚ),
      melhorCandidato elementos (normalizarTexto texto) CONFIG.searchThreshold
          (List.range elementos.length) = some c →
      (buscarPosicaoInicial elementos texto st).pendingFinalWords = []) ∧
    (∀ (elementos : List Elemento) (texto : JSStr) (st : VoiceState),
      melhorCandidato elementos (normalizarTexto texto) CONFIG.searchThreshold
          (List.range elementos.length) = none →
      buscarPosicaoInicial elementos texto st = st) := by
  refine ⟨?_, ?_, ?_, ?_, ?_, ?_⟩
  · intro transcript st
    simp only [processarResultadoFinal]
    split_ifs <;> rfl
  · intro elementos texto st i e s hm hnav
    simp only [verificarProximoElemento, hm]
    exact ⟨matchLocal_pending elementos _ true i e st (Or.inl rfl),
      matchLocal_same_final elementos _ i e st hnav⟩
  · intro elementos texto st i e s hm
    simp only [verificarProximoElemento, hm]
    exact matchLocal_pending elementos _ true i e st (Or.inl rfl)
  · intro elementos texto st hm hne
    simp only [verificarProximoElemento, hm]
    exact semMatch_final_discard _ st hne
  · intro elementos texto st c hm
    exact buscar_match_pending elementos texto st c hm
  · intro elementos texto st hm
    exact buscar_no_match elementos texto st hm

/-- Witness for the amended C3 at concrete inputs: a final transcript appends
its words; a LOCKED same-element final match commits them; a LOCKED final
no-match discards them; a SEARCHING no-match keeps them. -/
theorem claim_C3_word_commit_amended_witness :
    (processarResultadoFinal (strCodes "ola bom dia a todos")
        ⟨.LOCKED, .ANCHOR, 0, 0, [], 3, 0, 0, [], [], [], 0, -1,
          ⟨true, false, 0, 0, 0⟩⟩).pendingFinalWords
      = [strCodes "ola", strCodes "bom", strCodes "dia", strCodes "todos"] ∧
    (verificarProximoElemento [⟨strCodes "bom dia brasil", 0, 10⟩]
        (strCodes "bom dia brasil") true
        ⟨.LOCKED, .ANCHOR, 0, 0, [strCodes "bom", strCodes "dia", strCodes "brasil"],
          3, 0, 0, [], [strCodes "bom"], [], 0, -1,
          ⟨true, false, 0, 0, 0⟩⟩).st.cumulativeFinalWords = [strCodes "bom"] ∧
    (verificarProximoElemento [⟨strCodes "bom dia brasil", 0, 10⟩]
        (strCodes "zzz improviso www") true
        ⟨.LOCKED, .ANCHOR, 0, 0, [strCodes "bom", strCodes "dia", strCodes "brasil"],
          3, 0, 0, [], [strCodes "bom"], [], 0, -1,
          ⟨true, false, 0, 0, 0⟩⟩).st.pendingFinalWords = [] ∧
    buscarPosicaoInicial [⟨strCodes "bom dia brasil", 0, 10⟩]
        (strCodes "zzz improviso www")
        ⟨.SEARCHING, .ANCHOR, -1, 0, [], 0, 0, 0, [], [strCodes "bom"], [], 0, -1,
          ⟨false, false, 0, 0, 0⟩⟩
      = ⟨.SEARCHING, .ANCHOR, -1, 0, [], 0, 0, 0, [], [strCodes "bom"], [], 0, -1,
          ⟨false, false, 0, 0, 0⟩⟩ := by
  have hA := claim_C3_word_commit_amended.1 (strCodes "ola bom dia a todos")
    ⟨.LOCKED, .ANCHOR, 0, 0, [], 3, 0, 0, [], [], [], 0, -1, ⟨true, false, 0, 0, 0⟩⟩
  have hB := claim_C3_word_commit_amended.2.1 [⟨strCodes "bom dia brasil", 0, 10⟩]
    (strCodes "bom dia brasil")
    ⟨.LOCKED, .ANCHOR, 0, 0, [strCodes "bom", strCodes "dia", strCodes "brasil"],
      3, 0, 0, [], [strCodes "bom"], [], 0, -1, ⟨true, false, 0, 0, 0⟩⟩
    0 ⟨strCodes "bom dia brasil", 0, 10⟩ 1
    (by with_unfolding_all decide) (by decide)
  have hC := claim_C3_word_commit_amended.2.2.2.1 [⟨strCodes "bom dia brasil", 0, 10⟩]
    (strCodes "zzz improviso www")
    ⟨.LOCKED, .ANCHOR, 0, 0, [strCodes "bom", strCodes "dia", strCodes "brasil"],
      3, 0, 0, [], [strCodes "bom"], [], 0, -1, ⟨true, false, 0, 0, 0⟩⟩
    (by with_unfolding_all decide) (by with_unfolding_all decide)
  have hE := claim_C3_word_commit_amended.2.2.2.2.2 [⟨strCodes "bom dia brasil", 0, 10⟩]
    (strCodes "zzz improviso www")
    ⟨.SEARCHING, .ANCHOR, -1, 0, [], 0, 0, 0, [], [strCodes "bom"], [], 0, -1,
      ⟨false, false, 0, 0, 0⟩⟩
    (by with_unfolding_all decide)
  refine ⟨by rw [hA]; with_unfolding_all decide, ?_, hC.1, hE⟩
  rw [hB.2]
  with_unfolding_all decide

/-! ## Miss-streak transition (C2) -/

/-- `resume` leaves an active controller unpaused. -/
theorem resume_isPaused_false (s : ScrollState) (h : s.isActive = true) :
    (AutoScroll.resume s).isPaused = false := by
  by_cases hp : s.isPaused = true
  · rw [AutoScroll.resume, if_pos ⟨h, hp⟩]
  · rw [AutoScroll.resume, if_neg (fun hc => hp hc.2)]
    exact Bool.not_eq_true _ |>.mp hp

/-- A final no-match step away from the end of the element, below the miss
limit: it increments `consecutiveMisses`, discards the pending words and
pauses the scroll. -/
theorem semMatch_final_step_low (p : ℚ) (st : VoiceState)
    (hprog : ¬ p > mkRat 9 10)
    (hlt : ¬ st.consecutiveMisses + 1 ≥ CONFIG.maxConsecutiveMisses) :
    processarSemMatchLocal p true st =
      ⟨{ st with
          consecutiveMisses := st.consecutiveMisses + 1
          pendingFinalWords := []
          scroll := AutoScroll.pause st.scroll }, none⟩ := by
  simp only [processarSemMatchLocal]
  rw [if_neg hprog]
  rw [if_neg (show ¬ (p > mkRat 9 10 ∧
      st.parciaisSemMatchNoFim ≥ MAX_PARCIAIS_SEM_MATCH) from fun h => hprog h.1)]
  rw [if_pos trivial]
  rw [if_neg hlt]

/-- A final no-match step away from the end of the element, at the miss
limit: it resets to SEARCHING with `consecutiveMisses = 0` and empty pending
words. -/
theorem semMatch_final_step_high (p : ℚ) (st : VoiceState)
    (hprog : ¬ p > mkRat 9 10)
    (hge : st.consecutiveMisses + 1 ≥ CONFIG.maxConsecutiveMisses) :
    processarSemMatchLocal p true st =
      ⟨{ st with
          currentState := .SEARCHING
          consecutiveMisses := 0
          parciaisSemMatchNoFim := 0
          pendingFinalWords := []
          scroll := AutoScroll.softStop (AutoScroll.pause st.scroll) }, none⟩ := by
  simp only [processarSemMatchLocal]
  rw [if_neg hprog]
  rw [if_neg (show ¬ (p > mkRat 9 10 ∧
      st.parciaisSemMatchNoFim ≥ MAX_PARCIAIS_SEM_MATCH) from fun h => hprog h.1)]
  rw [if_pos trivial]
  rw [if_pos hge]

/-- Counterexample to C2 as stated.  Near the end of an element (progress
`10/10 > 0.9`) with `parciaisSemMatchNoFim = 4`, a SINGLE final no-match
already resets a LOCKED state to SEARCHING through the near-end escape:
`consecutiveMisses` is never incremented (it stays 0, not 1 then 2) and the
pending final words are NOT discarded. -/
theorem claim_C2_miss_streak_counterexample :
    (verificarProximoElemento [⟨strCodes "bom dia brasil", 0, 10⟩]
        (strCodes "xyz qqq") true
        ⟨.LOCKED, .ANCHOR, 0, 10, [], 10, 0, 4, [], [strCodes "ola"], [], 0, -1,
          ⟨true, false, 0, 0, 0⟩⟩).st.currentState = .SEARCHING ∧
    (verificarProximoElemento [⟨strCodes "bom dia brasil", 0, 10⟩]
        (strCodes "xyz qqq") true
        ⟨.LOCKED, .ANCHOR, 0, 10, [], 10, 0, 4, [], [strCodes "ola"], [], 0, -1,
          ⟨true, false, 0, 0, 0⟩⟩).st.consecutiveMisses = 0 ∧
    (verificarProximoElemento [⟨strCodes "bom dia brasil", 0, 10⟩]
        (strCodes "xyz qqq") true
        ⟨.LOCKED, .ANCHOR, 0, 10, [], 10, 0, 4, [], [strCodes "ola"], [], 0, -1,
          ⟨true, false, 0, 0, 0⟩⟩).st.pendingFinalWords = [strCodes "ola"] := by
  refine ⟨?_, ?_, ?_⟩ <;> with_unfolding_all decide

/-- `atualizarSpeakerMode` never introduces a nonzero miss count. -/
theorem atualizar_misses_zero (elementos : List Elemento) (idx : Int)
    (st : VoiceState) (h : st.consecutiveMisses = 0) :
    (atualizarSpeakerMode elementos idx st).consecutiveMisses = 0 := by
  simp only [atualizarSpeakerMode]
  split_ifs <;> simp [h]

/-- The state half of `shouldScrollTo` keeps the pause flag. -/
theorem shouldScrollTo_fst_isPaused (s : ScrollState) (p : ℚ) :
    ((AutoScroll.shouldScrollTo s p).1).isPaused = s.isPaused := by
  simp only [AutoScroll.shouldScrollTo]
  split_ifs <;> rfl

/-- `scrollParaElemento` keeps the pause flag. -/
theorem scrollParaElemento_isPaused (s : ScrollState) (e : Elemento) (p : ℚ)
    (b : Bool) : (scrollParaElemento s e p b).isPaused = s.isPaused := by
  simp only [scrollParaElemento, AutoScroll.setTargetOffset,
    AutoScroll.setTargetFromElement]
  split_ifs <;> rfl

/-- C2, amended: away from the near-end escape region (current progress not
above 0.9), with `state = LOCKED` and `consecutiveMisses = 0`, two
consecutive final results with no qualifying local candidate behave as
claimed: the first increments `consecutiveMisses` to 1, discards
`pendingFinalWords` and pauses the scroll while staying LOCKED; the second
resets the state to SEARCHING with `consecutiveMisses = 0` and empty pending
words.  Moreover any qualifying local match resets `consecutiveMisses` to 0,
and a non-advancing match on an active controller leaves the scroll
unpaused. -/
theorem claim_C2_miss_streak_amended :
    (∀ (elementos : List Elemento) (t1 t2 : JSStr) (st : VoiceState),
      st.currentState = .LOCKED →
      st.consecutiveMisses = 0 →
      ¬ (progressoAtualDe st > mkRat 9 10) →
      melhorCandidato elementos (normalizarTexto t1) CONFIG.lockedThreshold
          (janelaLocal elementos st) = none →
      melhorCandidato elementos (normalizarTexto t2) CONFIG.lockedThreshold
          (janelaLocal elementos
            (verificarProximoElemento elementos t1 true st).st) = none →
      ((verificarProximoElemento elementos t1 true st).st.currentState
          = .LOCKED ∧
        (verificarProximoElemento elementos t1 true st).st.consecutiveMisses = 1 ∧
        (verificarProximoElemento elementos t1 true st).st.pendingFinalWords = [] ∧
        (verificarProximoElemento elementos t1 true st).st.scroll
          = AutoScroll.pause st.scroll ∧
        (verificarProximoElemento elementos t2 true
            (verificarProximoElemento elementos t1 true st).st).st.currentState
          = .SEARCHING ∧
        (verificarProximoElemento elementos t2 true
            (verificarProximoElemento elementos t1 true st).st).st.consecutiveMisses
          = 0 ∧
        (verificarProximoElemento elementos t2 true
            (verificarProximoElemento elementos t1 true st).st).st.pendingFinalWords
          = [])) ∧
    (∀ (elementos : List Elemento) (tN : JSStr) (isFinal : Bool)
        (i : Nat) (e : Elemento) (st : VoiceState),
      (processarMatchLocal elementos tN isFinal i e st).st.consecutiveMisses = 0) ∧
    (∀ (elementos : List Elemento) (tN : JSStr) (isFinal : Bool)
        (i : Nat) (e : Elemento) (st : VoiceState),
      ¬ ((i : Int) > st.currentElementIndex) →
      st.scroll.isActive = true →
      (processarMatchLocal elementos tN isFinal i e st).st.scroll.isPaused
        = false) := by
  refine ⟨?_, ?_, ?_⟩
  · intro elementos t1 t2 st hL hm0 hprog hm1 hm2
    have h1 : verificarProximoElemento elementos t1 true st =
        ⟨{ st with
            consecutiveMisses := st.consecutiveMisses + 1
            pendingFinalWords := []
            scroll := AutoScroll.pause st.scroll }, none⟩ := by
      simp only [verificarProximoElemento, hm1]
      exact semMatch_final_step_low (progressoAtualDe st) st hprog
        (by rw [hm0]; with_unfolding_all decide)
    rw [h1] at hm2
    have h2 : verificarProximoElemento elementos t2 true
        ({ st with
            consecutiveMisses := st.consecutiveMisses + 1
            pendingFinalWords := []
            scroll := AutoScroll.pause st.scroll } : VoiceState) =
        ⟨{ st with
            currentState := .SEARCHING
            consecutiveMisses := 0
            parciaisSemMatchNoFim := 0
            pendingFinalWords := []
            scroll := AutoScroll.softStop (AutoScroll.pause
              (AutoScroll.pause st.scroll)) }, none⟩ := by
      simp only [verificarProximoElemento, hm2]
      exact semMatch_final_step_high _ _ hprog (by dsimp only; rw [hm0]; with_unfolding_all decide)
    rw [h1]
    dsimp only
    rw [h2]
    exact ⟨hL, by rw [hm0], rfl, rfl, rfl, rfl, rfl⟩
  · intro elementos tN isFinal i e st
    simp only [processarMatchLocal]
    by_cases hc : isFinal = true ∧ st.pendingFinalWords ≠ []
    · rw [if_pos hc]
      split_ifs
      all_goals
        first
        | rfl
        | exact atualizar_misses_zero _ _ _ rfl
    · rw [if_neg hc]
      split_ifs
      all_goals
        first
        | rfl
        | exact atualizar_misses_zero _ _ _ rfl
  · intro elementos tN isFinal i e st hnav hact
    simp only [processarMatchLocal]
    by_cases hc : isFinal = true ∧ st.pendingFinalWords ≠ []
    · rw [if_pos hc, if_neg hnav]
      split_ifs <;>
        simp [scrollParaElemento_isPaused, shouldScrollTo_fst_isPaused,
          resume_isPaused_false _ hact]
    · rw [if_neg hc, if_neg hnav]
      split_ifs <;>
        simp [scrollParaElemento_isPaused, shouldScrollTo_fst_isPaused,
          resume_isPaused_false _ hact]

/-- Witness for the amended C2 at concrete inputs: a LOCKED state at word
0 of 3 (progress 0), two final utterances with no candidate, plus a
non-advancing match that keeps `consecutiveMisses = 0` and the scroll
unpaused. -/
theorem claim_C2_miss_streak_amended_witness :
    ((verificarProximoElemento [⟨strCodes "bom dia brasil", 0, 10⟩]
        (strCodes "xyz qqq") true
        ⟨.LOCKED, .ANCHOR, 0, 0,
          [strCodes "bom", strCodes "dia", strCodes "brasil"], 3, 0, 0, [], [], [],
          0, -1, ⟨true, false, 0, 0, 0⟩⟩).st.consecutiveMisses = 1 ∧
      (verificarProximoElemento [⟨strCodes "bom dia brasil", 0, 10⟩]
          (strCodes "xyz qqq") true
          (verificarProximoElemento [⟨strCodes "bom dia brasil", 0, 10⟩]
              (strCodes "xyz qqq") true
              ⟨.LOCKED, .ANCHOR, 0, 0,
                [strCodes "bom", strCodes "dia", strCodes "brasil"], 3, 0, 0, [],
                [], [], 0, -1, ⟨true, false, 0, 0, 0⟩⟩).st).st.currentState
        = .SEARCHING) ∧
    (processarMatchLocal [⟨strCodes "bom dia brasil", 0, 10⟩]
        (strCodes "bom dia") true 0 ⟨strCodes "bom dia brasil", 0, 10⟩
        ⟨.LOCKED, .ANCHOR, 0, 0,
          [strCodes "bom", strCodes "dia", strCodes "brasil"], 3, 1, 0, [], [], [],
          0, -1, ⟨true, true, 0, 0, 0⟩⟩).st.consecutiveMisses = 0 ∧
    (processarMatchLocal [⟨strCodes "bom dia brasil", 0, 10⟩]
        (strCodes "bom dia") true 0 ⟨strCodes "bom dia brasil", 0, 10⟩
        ⟨.LOCKED, .ANCHOR, 0, 0,
          [strCodes "bom", strCodes "dia", strCodes "brasil"], 3, 1, 0, [], [], [],
          0, -1, ⟨true, true, 0, 0, 0⟩⟩).st.scroll.isPaused = false := by
  have hA := claim_C2_miss_streak_amended.1 [⟨strCodes "bom dia brasil", 0, 10⟩]
    (strCodes "xyz qqq") (strCodes "xyz qqq")
    ⟨.LOCKED, .ANCHOR, 0, 0,
      [strCodes "bom", strCodes "dia", strCodes "brasil"], 3, 0, 0, [], [], [],
      0, -1, ⟨true, false, 0, 0, 0⟩⟩
    rfl rfl (by with_unfolding_all decide) (by with_unfolding_all decide)
    (by with_unfolding_all decide)
  have hB := claim_C2_miss_streak_amended.2.1 [⟨strCodes "bom dia brasil", 0, 10⟩]
    (strCodes "bom dia") true 0 ⟨strCodes "bom dia brasil", 0, 10⟩
    ⟨.LOCKED, .ANCHOR, 0, 0,
      [strCodes "bom", strCodes "dia", strCodes "brasil"], 3, 1, 0, [], [], [],
      0, -1, ⟨true, true, 0, 0, 0⟩⟩
  have hC := claim_C2_miss_streak_amended.2.2 [⟨strCodes "bom dia brasil", 0, 10⟩]
    (strCodes "bom dia") true 0 ⟨strCodes "bom dia brasil", 0, 10⟩
    ⟨.LOCKED, .ANCHOR, 0, 0,
      [strCodes "bom", strCodes "dia", strCodes "brasil"], 3, 1, 0, [], [], [],
      0, -1, ⟨true, true, 0, 0, 0⟩⟩
    (by with_unfolding_all decide) rfl
  exact ⟨⟨hA.2.1, hA.2.2.2.2.1⟩, hB, hC⟩

/-! ## Monotonic forward progress (C1) -/

/-- A no-match step never moves the element index, the word pointer or the
last reported progress, and emits nothing. -/
theorem semMatch_fields (p : ℚ) (isFinal : Bool) (st : VoiceState) :
    (processarSemMatchLocal p isFinal st).st.currentElementIndex
        = st.currentElementIndex ∧
      (processarSemMatchLocal p isFinal st).st.currentWordPointer
        = st.currentWordPointer ∧
      (processarSemMatchLocal p isFinal st).st.scroll.lastProgressoEnviado
        = st.scroll.lastProgressoEnviado ∧
      (processarSemMatchLocal p isFinal st).emitidoProgresso = none := by
  simp only [processarSemMatchLocal, AutoScroll.pause, AutoScroll.softStop]
  split_ifs <;> exact ⟨rfl, rfl, rfl, rfl⟩

/-- Every index in the LOCKED local window is at least the current element
index: the window starts at `max(0, currentElementIndex)`. -/
theorem janela_mem_ge {elementos : List Elemento} {st : VoiceState} {i : Nat}
    (h : i ∈ janelaLocal elementos st) : st.currentElementIndex ≤ (i : Int) := by
  simp only [janelaLocal, List.mem_range'_1] at h
  omega

/-- `atualizarSpeakerMode` keeps the element index when it already equals the
index being visited. -/
theorem atualizar_cei_idx (elementos : List Elemento) (idx : Int)
    (st : VoiceState) (h : st.currentElementIndex = idx) :
    (atualizarSpeakerMode elementos idx st).currentElementIndex = idx := by
  simp only [atualizarSpeakerMode]
  split_ifs <;> simp [h]

/-- An advancing local match emits no progress and lands exactly on the
matched index. -/
theorem matchLocal_av (elementos : List Elemento) (tN : JSStr) (isFinal : Bool)
    (i : Nat) (e : Elemento) (st : VoiceState)
    (hav : (i : Int) > st.currentElementIndex) :
    (processarMatchLocal elementos tN isFinal i e st).emitidoProgresso = none ∧
      (processarMatchLocal elementos tN isFinal i e st).st.currentElementIndex
        = (i : Int) := by
  simp only [processarMatchLocal]
  by_cases hc : isFinal = true ∧ st.pendingFinalWords ≠ []
  · rw [if_pos hc, if_pos hav]
    split_ifs
    · exact ⟨rfl, atualizar_cei_idx _ _ _ rfl⟩
    · refine ⟨rfl, ?_⟩
      simp only [inicializarTrackingElemento]
      exact atualizar_cei_idx _ _ _ rfl
    · refine ⟨rfl, ?_⟩
      simp only [inicializarTrackingElemento]
      exact atualizar_cei_idx _ _ _ rfl
  · rw [if_neg hc, if_pos hav]
    split_ifs
    · exact ⟨rfl, atualizar_cei_idx _ _ _ rfl⟩
    · refine ⟨rfl, ?_⟩
      simp only [inicializarTrackingElemento]
      exact atualizar_cei_idx _ _ _ rfl
    · refine ⟨rfl, ?_⟩
      simp only [inicializarTrackingElemento]
      exact atualizar_cei_idx _ _ _ rfl

/-- A non-advancing local match keeps the element index. -/
theorem matchLocal_cei_nav (elementos : List Elemento) (tN : JSStr)
    (isFinal : Bool) (i : Nat) (e : Elemento) (st : VoiceState)
    (hnav : ¬ ((i : Int) > st.currentElementIndex)) :
    (processarMatchLocal elementos tN isFinal i e st).st.currentElementIndex
      = st.currentElementIndex := by
  simp only [processarMatchLocal]
  by_cases hc : isFinal = true ∧ st.pendingFinalWords ≠ []
  · rw [if_pos hc, if_neg hnav]
    split_ifs <;> rfl
  · rw [if_neg hc, if_neg hnav]
    split_ifs <;> rfl

/-- `resume` keeps the last reported progress. -/
theorem resume_last (s : ScrollState) :
    (AutoScroll.resume s).lastProgressoEnviado = s.lastProgressoEnviado := by
  simp only [AutoScroll.resume]
  split_ifs <;> rfl

/-- `scrollParaElemento` keeps the last reported progress. -/
theorem scrollParaElemento_last (s : ScrollState) (e : Elemento) (p : ℚ)
    (b : Bool) :
    (scrollParaElemento s e p b).lastProgressoEnviado = s.lastProgressoEnviado := by
  simp only [scrollParaElemento, AutoScroll.setTargetOffset,
    AutoScroll.setTargetFromElement]
  split_ifs <;> rfl

/-- `shouldScrollTo` either fires above the 2% hysteresis and records the new
progress, or fires nothing and keeps the state. -/
theorem shouldScrollTo_cases (s : ScrollState) (p : ℚ) :
    ((AutoScroll.shouldScrollTo s p).2 = true ∧
        p > s.lastProgressoEnviado + mkRat 1 50 ∧
        ((AutoScroll.shouldScrollTo s p).1).lastProgressoEnviado = p) ∨
      ((AutoScroll.shouldScrollTo s p).2 = false ∧
        (AutoScroll.shouldScrollTo s p).1 = s) := by
  simp only [AutoScroll.shouldScrollTo]
  split_ifs with h
  · exact Or.inl ⟨rfl, h, rfl⟩
  · exact Or.inr ⟨rfl, rfl⟩

/-- Rounding a progress value strictly above `p/T` back to word units stays at
or above `p`. -/
theorem jsRound_toNat_ge (q : ℚ) (p T : Nat) (hpT : p ≤ T)
    (h : q > (p : ℚ) / (T : ℚ)) : p ≤ (jsRound (q * (T : ℚ))).toNat := by
  rcases Nat.eq_zero_or_pos T with hT | hT
  · have : p = 0 := by omega
    subst this
    exact Nat.zero_le _
  · have hT' : (0 : ℚ) < (T : ℚ) := by exact_mod_cast hT
    have h1 : (p : ℚ) < q * (T : ℚ) := by
      rw [gt_iff_lt, div_lt_iff₀ hT'] at h
      exact h
    have h2 : (p : Int) ≤ jsRound (q * (T : ℚ)) := by
      rw [jsRound, mkRat_as_div]
      apply Int.le_floor.mpr
      push_cast
      linarith
    omega

/-- A non-advancing local match never lowers the word pointer (given the
pointer is within the element). -/
theorem matchLocal_ptr_nav (elementos : List Elemento) (tN : JSStr)
    (isFinal : Bool) (i : Nat) (e : Elemento) (st : VoiceState)
    (hnav : ¬ ((i : Int) > st.currentElementIndex))
    (hwf : st.currentWordPointer ≤ st.currentElementTotalWords) :
    st.currentWordPointer ≤
      (processarMatchLocal elementos tN isFinal i e st).st.currentWordPointer := by
  simp only [processarMatchLocal]
  by_cases hc : isFinal = true ∧ st.pendingFinalWords ≠ []
  · rw [if_pos hc, if_neg hnav]
    dsimp only
    split_ifs
    all_goals
      try dsimp only
    all_goals
      first
      | exact le_refl _
      | omega
      | exact jsRound_toNat_ge _ _ _ hwf (by assumption)
  · rw [if_neg hc, if_neg hnav]
    try dsimp only
    split_ifs
    all_goals
      try dsimp only
    all_goals
      first
      | exact le_refl _
      | omega
      | exact jsRound_toNat_ge _ _ _ hwf (by assumption)

/-- Casting a pointer bound through the progress fraction. -/
theorem div_cast_mono (a b T : Nat) (h : a ≤ b) :
    (a : ℚ) / (T : ℚ) ≤ (b : ℚ) / (T : ℚ) := by
  rcases Nat.eq_zero_or_pos T with hT | hT
  · subst hT
    simp
  · have hT' : (0 : ℚ) < (T : ℚ) := by exact_mod_cast hT
    have hab : (a : ℚ) ≤ (b : ℚ) := by exact_mod_cast h
    rw [div_eq_mul_inv, div_eq_mul_inv]
    exact mul_le_mul_of_nonneg_right hab (le_of_lt (inv_pos.mpr hT'))

/-- A non-advancing local match never lowers the last reported progress. -/
theorem matchLocal_last_nav (elementos : List Elemento) (tN : JSStr)
    (isFinal : Bool) (i : Nat) (e : Elemento) (st : VoiceState)
    (hnav : ¬ ((i : Int) > st.currentElementIndex)) :
    st.scroll.lastProgressoEnviado ≤
      (processarMatchLocal elementos tN isFinal i e st).st.scroll.lastProgressoEnviado := by
  have h50 : (0 : ℚ) ≤ mkRat 1 50 := by rw [mkRat_as_div]; norm_num
  simp only [processarMatchLocal, AutoScroll.shouldScrollTo, scrollParaElemento,
    AutoScroll.setTargetOffset, AutoScroll.setTargetFromElement,
    Bool.false_eq_true, if_false]
  by_cases hc : isFinal = true ∧ st.pendingFinalWords ≠ []
  · rw [if_pos hc, if_neg hnav]
    try dsimp only
    split_ifs
    all_goals try dsimp only
    all_goals try simp only [resume_last] at *
    all_goals
      first
      | exact le_refl _
      | linarith
  · rw [if_neg hc, if_neg hnav]
    try dsimp only
    split_ifs
    all_goals try dsimp only
    all_goals try simp only [resume_last] at *
    all_goals
      first
      | exact le_refl _
      | linarith

set_option maxHeartbeats 1000000 in
/-- A non-advancing local match that emits a progress value `p` emits it at or
above the pointer fraction, strictly above the hysteresis band over the last
reported progress, and records it. -/
theorem matchLocal_emit_nav (elementos : List Elemento) (tN : JSStr)
    (isFinal : Bool) (i : Nat) (e : Elemento) (st : VoiceState)
    (hnav : ¬ ((i : Int) > st.currentElementIndex))
    (hwf : st.currentWordPointer ≤ st.currentElementTotalWords) (p : ℚ)
    (hemit : (processarMatchLocal elementos tN isFinal i e st).emitidoProgresso
      = some p) :
    (st.currentWordPointer : ℚ) / (st.currentElementTotalWords : ℚ) ≤ p ∧
      st.scroll.lastProgressoEnviado + mkRat 1 50 < p ∧
      (processarMatchLocal elementos tN isFinal i e st).st.scroll.lastProgressoEnviado
        = p := by
  simp only [processarMatchLocal, AutoScroll.shouldScrollTo, scrollParaElemento,
    AutoScroll.setTargetOffset, AutoScroll.setTargetFromElement,
    Bool.false_eq_true, if_false] at hemit ⊢
  by_cases hc : isFinal = true ∧ st.pendingFinalWords ≠ []
  · rw [if_pos hc, if_neg hnav] at hemit ⊢
    try dsimp only at hemit ⊢
    split_ifs at hemit ⊢
    all_goals try dsimp only at *
    all_goals
      first
      | exact Option.noConfusion hemit
      | (simp only [Option.some.injEq] at hemit
         subst hemit
         exact ⟨(by first
             | exact le_max_right _ _
             | exact div_cast_mono _ _ _ (by omega)),
           (by linarith [resume_last st.scroll]),
           (by rfl)⟩)
  · rw [if_neg hc, if_neg hnav] at hemit ⊢
    try dsimp only at hemit ⊢
    split_ifs at hemit ⊢
    all_goals try dsimp only at *
    all_goals
      first
      | exact Option.noConfusion hemit
      | (simp only [Option.some.injEq] at hemit
         subst hemit
         exact ⟨(by first
             | exact le_max_right _ _
             | exact div_cast_mono _ _ _ (by omega)),
           (by linarith [resume_last st.scroll]),
           (by rfl)⟩)

/-- One LOCKED step never lowers the element index. -/
theorem step_cei_mono (elementos : List Elemento) (texto : JSStr) (isFinal : Bool)
    (st : VoiceState) :
    st.currentElementIndex ≤
      (verificarProximoElemento elementos texto isFinal st).st.currentElementIndex := by
  rcases hm : melhorCandidato elementos (normalizarTexto texto) CONFIG.lockedThreshold
      (janelaLocal elementos st) with _ | ⟨i, e, sc⟩
  · simp only [verificarProximoElemento, hm]
    exact le_of_eq (semMatch_fields (progressoAtualDe st) isFinal st).1.symm
  · simp only [verificarProximoElemento, hm]
    by_cases hav : (i : Int) > st.currentElementIndex
    · rw [(matchLocal_av elementos _ isFinal i e st hav).2]
      exact le_of_lt hav
    · rw [matchLocal_cei_nav elementos _ isFinal i e st hav]

/-- C1: monotonic forward progress of the LOCKED handler.  (i) the local
search only ever selects an index at or beyond `currentElementIndex` (the
window starts there); (ii) a step never lowers `currentElementIndex`;
(iii) while `currentElementIndex` is unchanged, neither the word pointer nor
the last reported progress decreases (given the pointer is within the
element); (iv) an emitted progress value sits at or above the pointer
fraction `wordPointer / totalWords`, strictly above the previously reported
progress plus the 2% hysteresis, and becomes the new reported progress;
(v) over any sequence of steps `currentElementIndex` is non-decreasing. -/
theorem claim_C1_monotonic_progress :
    (∀ (elementos : List Elemento) (tN : JSStr) (st : VoiceState)
        (i : Nat) (e : Elemento) (sc : ℚ),
      melhorCandidato elementos tN CONFIG.lockedThreshold (janelaLocal elementos st)
          = some (i, e, sc) →
      st.currentElementIndex ≤ (i : Int)) ∧
    (∀ (elementos : List Elemento) (texto : JSStr) (isFinal : Bool)
        (st : VoiceState),
      st.currentElementIndex ≤
        (verificarProximoElemento elementos texto isFinal st).st.currentElementIndex) ∧
    (∀ (elementos : List Elemento) (texto : JSStr) (isFinal : Bool)
        (st : VoiceState),
      st.currentWordPointer ≤ st.currentElementTotalWords →
      (verificarProximoElemento elementos texto isFinal st).st.currentElementIndex
          = st.currentElementIndex →
      (st.currentWordPointer ≤
          (verificarProximoElemento elementos texto isFinal st).st.currentWordPointer ∧
        st.scroll.lastProgressoEnviado ≤
          (verificarProximoElemento elementos texto isFinal
            st).st.scroll.lastProgressoEnviado)) ∧
    (∀ (elementos : List Elemento) (texto : JSStr) (isFinal : Bool)
        (st : VoiceState) (p : ℚ),
      st.currentWordPointer ≤ st.currentElementTotalWords →
      (verificarProximoElemento elementos texto isFinal st).emitidoProgresso
          = some p →
      ((st.currentWordPointer : ℚ) / (st.currentElementTotalWords : ℚ) ≤ p ∧
        st.scroll.lastProgressoEnviado + mkRat 1 50 < p ∧
        (verificarProximoElemento elementos texto isFinal
          st).st.scroll.lastProgressoEnviado = p)) ∧
    (∀ (elementos : List Elemento) (passos : List (JSStr × Bool))
        (st : VoiceState),
      st.currentElementIndex ≤
        (passos.foldl
          (fun s tb => (verificarProximoElemento elementos tb.1 tb.2 s).st)
          st).currentElementIndex) := by
  refine ⟨?_, ?_, ?_, ?_, ?_⟩
  · intro elementos tN st i e sc h
    exact janela_mem_ge (melhorCandidato_spec h).1
  · intro elementos texto isFinal st
    exact step_cei_mono elementos texto isFinal st
  · intro elementos texto isFinal st hwf hsame
    rcases hm : melhorCandidato elementos (normalizarTexto texto)
        CONFIG.lockedThreshold (janelaLocal elementos st) with _ | ⟨i, e, sc⟩
    · simp only [verificarProximoElemento, hm]
      exact ⟨le_of_eq (semMatch_fields (progressoAtualDe st) isFinal st).2.1.symm,
        le_of_eq (semMatch_fields (progressoAtualDe st) isFinal st).2.2.1.symm⟩
    · simp only [verificarProximoElemento, hm] at hsame ⊢
      by_cases hav : (i : Int) > st.currentElementIndex
      · rw [(matchLocal_av elementos _ isFinal i e st hav).2] at hsame
        omega
      · exact ⟨matchLocal_ptr_nav elementos _ isFinal i e st hav hwf,
          matchLocal_last_nav elementos _ isFinal i e st hav⟩
  · intro elementos texto isFinal st p hwf hemit
    rcases hm : melhorCandidato elementos (normalizarTexto texto)
        CONFIG.lockedThreshold (janelaLocal elementos st) with _ | ⟨i, e, sc⟩
    · simp only [verificarProximoElemento, hm] at hemit
      rw [(semMatch_fields (progressoAtualDe st) isFinal st).2.2.2] at hemit
      exact Option.noConfusion hemit
    · simp only [verificarProximoElemento, hm] at hemit ⊢
      by_cases hav : (i : Int) > st.currentElementIndex
      · rw [(matchLocal_av elementos _ isFinal i e st hav).1] at hemit
        exact Option.noConfusion hemit
      · exact matchLocal_emit_nav elementos _ isFinal i e st hav hwf p hemit
  · intro elementos passos
    induction passos with
    | nil => intro st; exact le_refl _
    | cons tb resto ih =>
      intro st
      simp only [List.foldl_cons]
      exact le_trans (step_cei_mono elementos tb.1 tb.2 st) (ih _)

/-- Witness for C1 at concrete inputs: a one-element script, a LOCKED state at
word 0 of 3, and the interim utterance "bom dia", which matches the current
element (index 0, similarity 1), raises the pointer and emits progress 2/3. -/
theorem claim_C1_monotonic_progress_witness :
    ((0 : Int) ≤ ((0 : Nat) : Int)) ∧
    ((0 : Int) ≤ (verificarProximoElemento [⟨strCodes "bom dia brasil", 0, 10⟩]
        (strCodes "bom dia") false
        ⟨.LOCKED, .ANCHOR, 0, 0,
          [strCodes "bom", strCodes "dia", strCodes "brasil"], 3, 0, 0, [], [], [],
          0, -1, ⟨true, false, 0, 0, 0⟩⟩).st.currentElementIndex) ∧
    ((0 : Nat) ≤ (verificarProximoElemento [⟨strCodes "bom dia brasil", 0, 10⟩]
        (strCodes "bom dia") false
        ⟨.LOCKED, .ANCHOR, 0, 0,
          [strCodes "bom", strCodes "dia", strCodes "brasil"], 3, 0, 0, [], [], [],
          0, -1, ⟨true, false, 0, 0, 0⟩⟩).st.currentWordPointer ∧
      (0 : ℚ) ≤ (verificarProximoElemento [⟨strCodes "bom dia brasil", 0, 10⟩]
        (strCodes "bom dia") false
        ⟨.LOCKED, .ANCHOR, 0, 0,
          [strCodes "bom", strCodes "dia", strCodes "brasil"], 3, 0, 0, [], [], [],
          0, -1, ⟨true, false, 0, 0, 0⟩⟩).st.scroll.lastProgressoEnviado) ∧
    (((0 : Nat) : ℚ) / ((3 : Nat) : ℚ) ≤ mkRat 2 3 ∧
      (0 : ℚ) + mkRat 1 50 < mkRat 2 3 ∧
      (verificarProximoElemento [⟨strCodes "bom dia brasil", 0, 10⟩]
        (strCodes "bom dia") false
        ⟨.LOCKED, .ANCHOR, 0, 0,
          [strCodes "bom", strCodes "dia", strCodes "brasil"], 3, 0, 0, [], [], [],
          0, -1, ⟨true, false, 0, 0, 0⟩⟩).st.scroll.lastProgressoEnviado
        = mkRat 2 3) ∧
    ((0 : Int) ≤ ([(strCodes "bom dia", false)].foldl
        (fun s tb => (verificarProximoElemento [⟨strCodes "bom dia brasil", 0, 10⟩]
          tb.1 tb.2 s).st)
        ⟨.LOCKED, .ANCHOR, 0, 0,
          [strCodes "bom", strCodes "dia", strCodes "brasil"], 3, 0, 0, [], [], [],
          0, -1, ⟨true, false, 0, 0, 0⟩⟩).currentElementIndex) := by
  refine ⟨?_, ?_, ?_, ?_, ?_⟩
  · exact claim_C1_monotonic_progress.1 [⟨strCodes "bom dia brasil", 0, 10⟩]
      (strCodes "bom dia")
      ⟨.LOCKED, .ANCHOR, 0, 0,
        [strCodes "bom", strCodes "dia", strCodes "brasil"], 3, 0, 0, [], [], [],
        0, -1, ⟨true, false, 0, 0, 0⟩⟩
      0 ⟨strCodes "bom dia brasil", 0, 10⟩ 1 (by with_unfolding_all decide)
  · exact claim_C1_monotonic_progress.2.1 [⟨strCodes "bom dia brasil", 0, 10⟩]
      (strCodes "bom dia") false
      ⟨.LOCKED, .ANCHOR, 0, 0,
        [strCodes "bom", strCodes "dia", strCodes "brasil"], 3, 0, 0, [], [], [],
        0, -1, ⟨true, false, 0, 0, 0⟩⟩
  · exact claim_C1_monotonic_progress.2.2.1 [⟨strCodes "bom dia brasil", 0, 10⟩]
      (strCodes "bom dia") false
      ⟨.LOCKED, .ANCHOR, 0, 0,
        [strCodes "bom", strCodes "dia", strCodes "brasil"], 3, 0, 0, [], [], [],
        0, -1, ⟨true, false, 0, 0, 0⟩⟩
      (by decide) (by with_unfolding_all decide)
  · exact claim_C1_monotonic_progress.2.2.2.1 [⟨strCodes "bom dia brasil", 0, 10⟩]
      (strCodes "bom dia") false
      ⟨.LOCKED, .ANCHOR, 0, 0,
        [strCodes "bom", strCodes "dia", strCodes "brasil"], 3, 0, 0, [], [], [],
        0, -1, ⟨true, false, 0, 0, 0⟩⟩
      (mkRat 2 3) (by decide) (by with_unfolding_all decide)
  · exact claim_C1_monotonic_progress.2.2.2.2 [⟨strCodes "bom dia brasil", 0, 10⟩]
      [(strCodes "bom dia", false)]
      ⟨.LOCKED, .ANCHOR, 0, 0,
        [strCodes "bom", strCodes "dia", strCodes "brasil"], 3, 0, 0, [], [], [],
        0, -1, ⟨true, false, 0, 0, 0⟩⟩

end Teleprompter
